import Mathlib

/-!
# Audio-to-text use case (`go/use_cases/audio_to_text/audioToText.go`)

A shallow embedding of the Go program that uploads an audio file, starts a
transcription job, polls until the job is finished, fetches the transcript and
compares it with an expected text.

Conventions of the embedding.

* A Go function returning `(T, error)` returns a pair `T × Option GoError`
  (`none` is the `nil` error).
* A run-time panic (index out of range, nil dereference) is not a returned
  value: functions that can panic return an `Outcome`.
* The remote services and the file system are a `World`: a record holding, for
  every external call the program makes, the answer that call receives.  The
  status query is the only call made repeatedly, so its answer is indexed by
  the number of queries made before it.
* Every function that performs external calls also returns the list of
  `Event`s it performed, oldest first.
* `int64` values are integers kept in range by `wrapInt64`.
* The `*string` parameters of the Go functions are always addresses of live
  variables in the callers of this program, so they are modelled as strings.
-/

namespace AudioToText

/-! ## Errors, panics, outcomes -/

/-- Values of the Go `error` interface that the program can observe. -/
inductive GoError where
  /-- The value built by `errors.New(msg)`. -/
  | errorsNew (msg : String)
  /-- The error `json.Unmarshal` returns for input that is not valid JSON. -/
  | jsonInvalid
  /-- The error `json.Unmarshal` returns when a JSON value does not fit the Go type. -/
  | jsonTypeMismatch
  /-- An error handed back by the operating system or by a remote service. -/
  | remote (tag : String)
  deriving DecidableEq, Repr

/-- Run-time panics of the Go program. -/
inductive Panic where
  /-- The index expression `xs[i]` with `i ≥ len(xs)`. -/
  | indexOutOfRange (index : Int) (len : Nat)
  /-- The dereference of a nil pointer. -/
  | nilDereference
  /-- The call `panic(err)` with an error value, as `session.Must` makes it. -/
  | raised (err : GoError)
  deriving DecidableEq, Repr

/-- How a Go function invocation ends: it returns, or it panics. -/
inductive Outcome (α : Type) where
  | ret (a : α)
  | panic (p : Panic)
  deriving DecidableEq, Repr

/-! ## 64-bit signed integers -/

/-- Reduction of an integer to the range of `int64` (two's complement). -/
def wrapInt64 (x : Int) : Int := (x + 2 ^ 63) % 2 ^ 64 - 2 ^ 63

/-- The constant `time.Second`, in nanoseconds. -/
def timeSecond : Int := 1000000000

/-- Go: `multiplyDuration`, the `int64` product `time.Duration(factor) * d`. -/
def multiplyDuration (factor : Int) (d : Int) : Int := wrapInt64 (factor * d)

/-! ## Data exchanged with the services -/

/-- SDK: `transcribeservice.TranscriptionJobSummary`; only the status is read. -/
structure TranscriptionJobSummary where
  TranscriptionJobStatus : Option String
  deriving DecidableEq, Repr

/-- SDK: `transcribeservice.ListTranscriptionJobsOutput`; the summaries are a
slice of pointers, so an element may be nil. -/
structure ListTranscriptionJobsOutput where
  TranscriptionJobSummaries : List (Option TranscriptionJobSummary)
  deriving DecidableEq, Repr

/-- SDK: `transcribeservice.Transcript`. -/
structure Transcript where
  TranscriptFileUri : Option String
  deriving DecidableEq, Repr

/-- SDK: `transcribeservice.TranscriptionJob`; only the transcript is read. -/
structure TranscriptionJob where
  Transcript : Option Transcript
  deriving DecidableEq, Repr

/-- SDK: `transcribeservice.GetTranscriptionJobOutput`. -/
structure GetTranscriptionJobOutput where
  TranscriptionJob : Option TranscriptionJob
  deriving DecidableEq, Repr

/-- An open local file (`*os.File`), identified by the path it was opened at. -/
structure File where
  path : String
  deriving DecidableEq, Repr

/-- SDK: `s3.GetObjectOutput`; `Body` is the result of reading the stream to its end. -/
structure GetObjectOutput where
  Body : Except GoError String

/-- SDK: `transcribeservice.StartTranscriptionJobInput`. -/
structure StartTranscriptionJobInput where
  LanguageCode : String
  MediaFileUri : String
  MediaFormat : String
  OutputBucketName : String
  TranscriptionJobName : String
  deriving DecidableEq, Repr

/-- The answers of the environment to the external calls of the program. -/
structure World where
  /-- Answer of `os.Open(path)`. -/
  osOpen : String → Except GoError File
  /-- Answer of `ioutil.ReadAll(file)`. -/
  readAll : File → Except GoError String
  /-- Answer of `uploader.Upload` for the `Bucket`, `Key` and `Body` of the request. -/
  upload : String → String → File → Except GoError Unit
  /-- Answer of `svc.StartTranscriptionJob(input)`. -/
  startTranscriptionJob : StartTranscriptionJobInput → Except GoError Unit
  /-- Answer of the `n`-th (from 0) call `svc.ListTranscriptionJobs` for a name filter. -/
  listTranscriptionJobs : Nat → String → Except GoError ListTranscriptionJobsOutput
  /-- Answer of `svc.GetTranscriptionJob` for a job name. -/
  getTranscriptionJob : String → Except GoError GetTranscriptionJobOutput
  /-- Answer of `svc.GetObject` for a bucket and a key. -/
  getObject : String → String → Except GoError GetObjectOutput

/-- The calls the program makes to the operating system and to the SDK, each
with the arguments the program passes.  An event records the request of the
program, not what the SDK or the service does with it: `upload bucket key body`
is the call `uploader.Upload` with these `Bucket`, `Key` and `Body`. -/
inductive Event where
  | osOpen (path : String)
  | fileClose (file : File)
  | readAll (file : File)
  | println (line : String)
  | printlnError (err : GoError)
  | upload (bucket key : String) (body : File)
  | startTranscriptionJob (input : StartTranscriptionJobInput)
  | listTranscriptionJobs (jobNameContains : String)
  | sleep (nanoseconds : Int)
  | getTranscriptionJob (jobName : String)
  | getObject (bucket key : String)
  deriving DecidableEq, Repr

/-- The events an invocation performed, and how it ended. -/
abbrev Run (α : Type) := List Event × Outcome α

/-! ## `dropFile`, `startTranscription`, `isTranscriptionDone`, `getResultURI` -/

/-- Go: `dropFile`.  Opens the file, calls the uploader with the bucket as
`Bucket`, the file name as `Key` and the file as `Body`, and returns the URI
built from the bucket and the file name. -/
def dropFile (w : World) (filename inputBucket : String) : Run (String × Option GoError) :=
  match w.osOpen filename with
  | .error err =>
    ([.osOpen filename, .println ("Could not open " ++ filename)], .ret ("", some err))
  | .ok file =>
    match w.upload inputBucket filename file with
    | .error err =>
      ([.osOpen filename, .upload inputBucket filename file,
        .println ("Failed to upload " ++ filename ++ " to bucket " ++ inputBucket),
        .fileClose file], .ret ("", some err))
    | .ok _ =>
      ([.osOpen filename, .upload inputBucket filename file, .fileClose file],
        .ret ("s3://" ++ inputBucket ++ "/" ++ filename, none))

/-- The request `startTranscription` builds. -/
def startInput (mediaURI outputBucket jobName : String) : StartTranscriptionJobInput :=
  { LanguageCode := "en-US", MediaFileUri := mediaURI, MediaFormat := "wav",
    OutputBucketName := outputBucket, TranscriptionJobName := jobName }

/-- Go: `startTranscription`. -/
def startTranscription (w : World) (mediaURI outputBucket jobName : String) :
    Run (Option GoError) :=
  match w.startTranscriptionJob (startInput mediaURI outputBucket jobName) with
  | .error err => ([.startTranscriptionJob (startInput mediaURI outputBucket jobName)], .ret (some err))
  | .ok _ => ([.startTranscriptionJob (startInput mediaURI outputBucket jobName)], .ret none)

/-- Go: `isTranscriptionDone`, as the `call`-th status query of the run.  The
three reads of `result.TranscriptionJobSummaries[0]` are the same element, so
the bounds check and the nil check are made once. -/
def isTranscriptionDone (w : World) (call : Nat) (jobName : String) :
    Run (Bool × Option GoError) :=
  ([.listTranscriptionJobs jobName],
    match w.listTranscriptionJobs call jobName with
    | .error err => .ret (false, some err)
    | .ok result =>
      match result.TranscriptionJobSummaries with
      | [] => .panic (.indexOutOfRange 0 0)
      | none :: _ => .panic .nilDereference
      | some summary :: _ =>
        match summary.TranscriptionJobStatus with
        | none => .ret (false, none)
        | some status =>
          if status = "COMPLETED" then .ret (true, none)
          else if status = "FAILED" then .ret (false, some (.errorsNew "Job failed"))
          else .ret (false, none))

/-- Go: `getResultURI`. -/
def getResultURI (w : World) (jobName : String) : Run (String × Option GoError) :=
  ([.getTranscriptionJob jobName],
    match w.getTranscriptionJob jobName with
    | .error err => .ret ("", some err)
    | .ok results =>
      match results.TranscriptionJob with
      | none => .panic .nilDereference
      | some job =>
        match job.Transcript with
        | none => .panic .nilDereference
        | some transcript =>
          match transcript.TranscriptFileUri with
          | none => .panic .nilDereference
          | some uri => .ret (uri, none))

/-! ## `encoding/json`: reading a text as a JSON value -/

/-- A JSON value as `encoding/json` reads it; a number keeps its literal. -/
inductive JValue where
  | null
  | bool (b : Bool)
  | number (literal : String)
  | str (s : String)
  | array (elems : List JValue)
  | object (members : List (String × JValue))
  deriving Repr

/-- The JSON white space characters. -/
def isSpace (c : Char) : Bool := c = ' ' || c = '\t' || c = '\r' || c = '\n'

/-- Drops leading JSON white space. -/
def skipSpace : List Char → List Char
  | [] => []
  | c :: cs => if isSpace c then skipSpace cs else c :: cs

/-- The decimal digits. -/
def isDigit (c : Char) : Bool := decide ('0' ≤ c) && decide (c ≤ '9')

/-- Splits off the longest run of leading digits. -/
def takeDigits : List Char → List Char × List Char
  | [] => ([], [])
  | c :: cs => if isDigit c then ((takeDigits cs).1.cons c, (takeDigits cs).2) else ([], c :: cs)

/-- The optional exponent of a number: `e` or `E`, an optional sign, one digit or more. -/
def scanExponent (acc cs : List Char) : Option (List Char × List Char) :=
  match cs with
  | e :: r =>
    if e = 'e' || e = 'E' then
      match r with
      | s :: r2 =>
        if s = '+' || s = '-' then
          match takeDigits r2 with
          | ([], _) => none
          | (ds, r3) => some (acc ++ e :: s :: ds, r3)
        else
          match takeDigits r with
          | ([], _) => none
          | (ds, r3) => some (acc ++ e :: ds, r3)
      | [] => none
    else some (acc, cs)
  | [] => some (acc, cs)

/-- The optional fraction of a number: a dot and one digit or more. -/
def scanFraction (acc cs : List Char) : Option (List Char × List Char) :=
  match cs with
  | '.' :: r =>
    match takeDigits r with
    | ([], _) => none
    | (ds, r2) => scanExponent (acc ++ '.' :: ds) r2
  | _ => scanExponent acc cs

/-- The integer part of a number: `0`, or a non-zero digit and further digits. -/
def scanInteger (acc cs : List Char) : Option (List Char × List Char) :=
  match cs with
  | [] => none
  | c :: r =>
    if c = '0' then scanFraction (acc ++ [c]) r
    else if isDigit c then scanFraction (acc ++ c :: (takeDigits r).1) (takeDigits r).2
    else none

/-- Reads a JSON number; gives its literal and the remaining input. -/
def scanNumber (cs : List Char) : Option (List Char × List Char) :=
  match cs with
  | '-' :: r => scanInteger ['-'] r
  | _ => scanInteger [] cs

/-- The value of a hexadecimal digit. -/
def hexValue (c : Char) : Option Nat :=
  if isDigit c then some (c.toNat - '0'.toNat)
  else if 'a' ≤ c ∧ c ≤ 'f' then some (c.toNat - 'a'.toNat + 10)
  else if 'A' ≤ c ∧ c ≤ 'F' then some (c.toNat - 'A'.toNat + 10)
  else none

/-- Reads a `\\uXXXX` escape; gives the code unit and the remaining input. -/
def getu4 (cs : List Char) : Option (Nat × List Char) :=
  match cs with
  | '\\' :: 'u' :: a :: b :: c :: d :: r =>
    match hexValue a, hexValue b, hexValue c, hexValue d with
    | some x, some y, some z, some t => some (((x * 16 + y) * 16 + z) * 16 + t, r)
    | _, _, _, _ => none
  | _ => none

/-- The character a one-letter escape stands for. -/
def escapeChar (c : Char) : Option Char :=
  if c = '"' then some '"' else if c = '\\' then some '\\' else if c = '/' then some '/'
  else if c = 'b' then some (Char.ofNat 8) else if c = 'f' then some (Char.ofNat 12)
  else if c = 'n' then some '\n' else if c = 'r' then some '\r' else if c = 't' then some '\t'
  else none

/-- The Unicode replacement character. -/
def replacementChar : Char := Char.ofNat 0xFFFD

/-- The character of a `\\u` escape with code unit `hi`: a high surrogate followed by
the escape of a low surrogate gives the combined character, a surrogate
without partner gives the replacement character. -/
def decodeU (hi : Nat) (rest : List Char) : Char × List Char :=
  if 0xD800 ≤ hi ∧ hi < 0xE000 then
    match getu4 rest with
    | some (lo, rest2) =>
      if hi < 0xDC00 ∧ 0xDC00 ≤ lo ∧ lo < 0xE000 then
        (Char.ofNat ((hi - 0xD800) * 1024 + (lo - 0xDC00) + 0x10000), rest2)
      else (replacementChar, rest)
    | none => (replacementChar, rest)
  else (Char.ofNat hi, rest)

/-- Reads a JSON string after its opening quote; gives the characters of the
string and the input after the closing quote.  Control characters and
unknown escapes are invalid. -/
def scanString : Nat → List Char → Option (List Char × List Char)
  | 0, _ => none
  | _ + 1, [] => none
  | fuel + 1, c :: r =>
    if c = '"' then some ([], r)
    else if c = '\\' then
      match r with
      | [] => none
      | e :: r2 =>
        if e = 'u' then
          match getu4 (c :: r) with
          | none => none
          | some (hi, r3) =>
            (scanString fuel (decodeU hi r3).2).map fun p => ((decodeU hi r3).1 :: p.1, p.2)
        else
          match escapeChar e with
          | none => none
          | some x => (scanString fuel r2).map fun p => (x :: p.1, p.2)
    else if c.toNat < 0x20 then none
    else (scanString fuel r).map fun p => (c :: p.1, p.2)

/-- The deepest nesting of arrays and objects `encoding/json` accepts. -/
def maxNestingDepth : Nat := 10000

mutual
/-- Reads one JSON value that lies inside `depth` open arrays and objects; gives
the value and the remaining input.  An array or object that would be nested
deeper than `maxNestingDepth` is invalid. -/
def parseValue : Nat → Nat → List Char → Option (JValue × List Char)
  | 0, _, _ => none
  | fuel + 1, depth, cs =>
    match skipSpace cs with
    | '{' :: r =>
      if maxNestingDepth < depth + 1 then none
      else
        match skipSpace r with
        | '}' :: r2 => some (.object [], r2)
        | _ => (parseMembers fuel (depth + 1) r).map fun p => (.object p.1, p.2)
    | '[' :: r =>
      if maxNestingDepth < depth + 1 then none
      else
        match skipSpace r with
        | ']' :: r2 => some (.array [], r2)
        | _ => (parseElements fuel (depth + 1) r).map fun p => (.array p.1, p.2)
    | '"' :: r => (scanString (r.length + 1) r).map fun p => (.str (String.mk p.1), p.2)
    | 't' :: 'r' :: 'u' :: 'e' :: r => some (.bool true, r)
    | 'f' :: 'a' :: 'l' :: 's' :: 'e' :: r => some (.bool false, r)
    | 'n' :: 'u' :: 'l' :: 'l' :: r => some (.null, r)
    | rest => (scanNumber rest).map fun p => (.number (String.mk p.1), p.2)
/-- Reads the elements of a non-empty array, itself at nesting `depth`, up to
the closing bracket. -/
def parseElements : Nat → Nat → List Char → Option (List JValue × List Char)
  | 0, _, _ => none
  | fuel + 1, depth, cs =>
    match parseValue fuel depth cs with
    | none => none
    | some (v, r) =>
      match skipSpace r with
      | ',' :: r2 => (parseElements fuel depth r2).map fun p => (v :: p.1, p.2)
      | ']' :: r2 => some ([v], r2)
      | _ => none
/-- Reads the members of a non-empty object, itself at nesting `depth`, up to
the closing brace. -/
def parseMembers : Nat → Nat → List Char → Option (List (String × JValue) × List Char)
  | 0, _, _ => none
  | fuel + 1, depth, cs =>
    match skipSpace cs with
    | '"' :: r =>
      match scanString (r.length + 1) r with
      | none => none
      | some (key, r2) =>
        match skipSpace r2 with
        | ':' :: r3 =>
          match parseValue fuel depth r3 with
          | none => none
          | some (v, r4) =>
            match skipSpace r4 with
            | ',' :: r5 =>
              (parseMembers fuel depth r5).map fun p => ((String.mk key, v) :: p.1, p.2)
            | '}' :: r5 => some ([(String.mk key, v)], r5)
            | _ => none
        | _ => none
    | _ => none
end

/-- Reads a whole text as one JSON value (`none` when the text is not valid
JSON or is nested deeper than `maxNestingDepth`).  The parser spends at most
two units of fuel for each character read. -/
def parseJSON (text : String) : Option JValue :=
  match parseValue (2 * text.length + 2) 0 text.data with
  | none => none
  | some (v, r) => if skipSpace r = [] then some v else none

/-! ## `encoding/json`: storing a JSON value into the Go types

`json.Unmarshal` stores into the value it is given: a JSON `null` leaves a
string or a struct as it is and empties a slice, an object key that names no
field is skipped, a key that occurs twice is stored twice, and a JSON value of
the wrong kind leaves the target as it is and makes the call return an error
after the rest has been stored.  Each store below returns the new value and
whether every JSON value fitted (`true`) or not. -/

/-- A Go slice: the elements of its backing array that were ever written, and
its length.  The slice holds the first `len` elements; `json.Unmarshal`
shortens a slice without clearing the elements it cuts off and stores into
them again when the slice grows back. -/
structure GoSlice (α : Type) where
  backing : List α
  len : Nat
  deriving Repr

/-- The nil slice. -/
def GoSlice.nil {α : Type} : GoSlice α := { backing := [], len := 0 }

/-- The elements a slice holds. -/
def GoSlice.toList {α : Type} (s : GoSlice α) : List α := s.backing.take s.len

/-- Go: an element of `TranscriptResults.Results.Transcripts`. -/
structure TranscriptEntry where
  Transcript : String
  deriving Repr, DecidableEq

/-- Go: an element of `Alternatives` of an item. -/
structure Alternative where
  Confidence : String
  Content : String
  deriving Repr

/-- Go: an element of `TranscriptResults.Results.Items`. -/
structure Item where
  StartTime : String
  EndTime : String
  Alternatives : GoSlice Alternative
  Type_ : String
  deriving Repr

/-- Go: the field `Results` of `TranscriptResults`. -/
structure ResultsBlock where
  Transcripts : GoSlice TranscriptEntry
  Items : GoSlice Item
  deriving Repr

/-- Go: `TranscriptResults`. -/
structure TranscriptResults where
  JobName : String
  AccountID : String
  Results : ResultsBlock
  Status : String
  deriving Repr

/-- The zero values of the struct types. -/
def TranscriptEntry.zero : TranscriptEntry := { Transcript := "" }

/-- The zero value of an alternative. -/
def Alternative.zero : Alternative := { Confidence := "", Content := "" }

/-- The zero value of an item. -/
def Item.zero : Item := { StartTime := "", EndTime := "", Alternatives := GoSlice.nil, Type_ := "" }

/-- Go: `TranscriptResults{}`. -/
def TranscriptResults.zero : TranscriptResults :=
  { JobName := "", AccountID := "", Results := { Transcripts := GoSlice.nil, Items := GoSlice.nil },
    Status := "" }

/-- Case folding of object keys: ASCII letters to upper case, and the two
letters outside ASCII that fold to `S` and `K`. -/
def foldChar (c : Char) : Char :=
  if 'a' ≤ c ∧ c ≤ 'z' then Char.ofNat (c.toNat - 32)
  else if c = Char.ofNat 0x17F then 'S'
  else if c = Char.ofNat 0x212A then 'K'
  else c

/-- Whether an object key names the field with JSON name `name`: the exact
name, or a name equal to it under case folding. -/
def fieldMatches (name key : String) : Bool :=
  key = name || key.data.map foldChar = name.data.map foldChar

/-- Stores a JSON value into a Go string. -/
def storeString (cur : String) : JValue → String × Bool
  | .str s => (s, true)
  | .null => (cur, true)
  | _ => (cur, false)

/-- Stores a JSON value into a Go struct whose fields are stored by `setField`. -/
def storeStruct {σ : Type} (setField : σ → String → JValue → σ × Bool) (cur : σ) :
    JValue → σ × Bool
  | .object members =>
    members.foldl (fun acc kv => ((setField acc.1 kv.1 kv.2).1, acc.2 && (setField acc.1 kv.1 kv.2).2))
      (cur, true)
  | .null => (cur, true)
  | _ => (cur, false)

/-- Stores the elements of a JSON array, in order, into the elements of a
backing array, using a zero element where the backing array ends. -/
def storeElements {α : Type} (zero : α) (store : α → JValue → α × Bool) :
    List JValue → List α → List α × Bool
  | [], _ => ([], true)
  | v :: vs, backing =>
    ((store (backing.headD zero) v).1 :: (storeElements zero store vs backing.tail).1,
      (store (backing.headD zero) v).2 && (storeElements zero store vs backing.tail).2)

/-- Stores a JSON value into a Go slice. -/
def storeSlice {α : Type} (zero : α) (store : α → JValue → α × Bool) (cur : GoSlice α) :
    JValue → GoSlice α × Bool
  | .array [] => (GoSlice.nil, true)
  | .array (e :: es) =>
    ({ backing := (storeElements zero store (e :: es) cur.backing).1
                    ++ cur.backing.drop (e :: es).length,
       len := (e :: es).length },
      (storeElements zero store (e :: es) cur.backing).2)
  | .null => (GoSlice.nil, true)
  | _ => (cur, false)

/-- Stores one object member into an element of `Transcripts`. -/
def TranscriptEntry.setField (cur : TranscriptEntry) (key : String) (v : JValue) :
    TranscriptEntry × Bool :=
  if fieldMatches "transcript" key then
    ({ cur with Transcript := (storeString cur.Transcript v).1 }, (storeString cur.Transcript v).2)
  else (cur, true)

/-- Stores one object member into an element of `Alternatives`. -/
def Alternative.setField (cur : Alternative) (key : String) (v : JValue) : Alternative × Bool :=
  if fieldMatches "confidence" key then
    ({ cur with Confidence := (storeString cur.Confidence v).1 }, (storeString cur.Confidence v).2)
  else if fieldMatches "content" key then
    ({ cur with Content := (storeString cur.Content v).1 }, (storeString cur.Content v).2)
  else (cur, true)

/-- Stores one object member into an element of `Items`. -/
def Item.setField (cur : Item) (key : String) (v : JValue) : Item × Bool :=
  if fieldMatches "start_time" key then
    ({ cur with StartTime := (storeString cur.StartTime v).1 }, (storeString cur.StartTime v).2)
  else if fieldMatches "end_time" key then
    ({ cur with EndTime := (storeString cur.EndTime v).1 }, (storeString cur.EndTime v).2)
  else if fieldMatches "alternatives" key then
    ({ cur with Alternatives :=
          (storeSlice Alternative.zero (storeStruct Alternative.setField) cur.Alternatives v).1 },
      (storeSlice Alternative.zero (storeStruct Alternative.setField) cur.Alternatives v).2)
  else if fieldMatches "type" key then
    ({ cur with Type_ := (storeString cur.Type_ v).1 }, (storeString cur.Type_ v).2)
  else (cur, true)

/-- Stores one object member into the field `Results`. -/
def ResultsBlock.setField (cur : ResultsBlock) (key : String) (v : JValue) : ResultsBlock × Bool :=
  if fieldMatches "transcripts" key then
    ({ cur with Transcripts :=
          (storeSlice TranscriptEntry.zero (storeStruct TranscriptEntry.setField) cur.Transcripts v).1 },
      (storeSlice TranscriptEntry.zero (storeStruct TranscriptEntry.setField) cur.Transcripts v).2)
  else if fieldMatches "items" key then
    ({ cur with Items := (storeSlice Item.zero (storeStruct Item.setField) cur.Items v).1 },
      (storeSlice Item.zero (storeStruct Item.setField) cur.Items v).2)
  else (cur, true)

/-- Stores one object member into a `TranscriptResults`. -/
def TranscriptResults.setField (cur : TranscriptResults) (key : String) (v : JValue) :
    TranscriptResults × Bool :=
  if fieldMatches "jobName" key then
    ({ cur with JobName := (storeString cur.JobName v).1 }, (storeString cur.JobName v).2)
  else if fieldMatches "accountId" key then
    ({ cur with AccountID := (storeString cur.AccountID v).1 }, (storeString cur.AccountID v).2)
  else if fieldMatches "results" key then
    ({ cur with Results := (storeStruct ResultsBlock.setField cur.Results v).1 },
      (storeStruct ResultsBlock.setField cur.Results v).2)
  else if fieldMatches "status" key then
    ({ cur with Status := (storeString cur.Status v).1 }, (storeString cur.Status v).2)
  else (cur, true)

/-- Go: `json.Unmarshal([]byte(text), &job)`; gives the struct after the call
and the error the call returns.  Text that is not valid JSON is rejected before
anything is stored. -/
def jsonUnmarshal (text : String) (job : TranscriptResults) : TranscriptResults × Option GoError :=
  match parseJSON text with
  | none => (job, some .jsonInvalid)
  | some v =>
    ((storeStruct TranscriptResults.setField job v).1,
      if (storeStruct TranscriptResults.setField job v).2 then none else some .jsonTypeMismatch)

/-! ## `getTextFromURI`, `getTextFromFile` -/

/-- Go: `strings.Split(s, sep)` for a separator of one character. -/
def stringsSplit : List Char → Char → List (List Char)
  | [], _ => [[]]
  | c :: cs, sep =>
    if c = sep then [] :: stringsSplit cs sep
    else
      match stringsSplit cs sep with
      | [] => [[c]]
      | p :: ps => (c :: p) :: ps

/-- Go: `getTextFromURI`.  Fetches the object named by the last part of the
URI from the output bucket, reads it as a `TranscriptResults` and returns the
text of its first transcript. -/
def getTextFromURI (w : World) (outputBucket uri : String) : Run (String × Option GoError) :=
  match (stringsSplit uri.data '/').getLast? with
  | none => ([], .panic (.indexOutOfRange (-1) 0))
  | some part =>
    ([.getObject outputBucket (String.mk part)],
      match w.getObject outputBucket (String.mk part) with
      | .error err => .ret ("", some err)
      | .ok result =>
        match result.Body with
        | .error err => .ret ("", some err)
        | .ok text =>
          match (jsonUnmarshal text TranscriptResults.zero).2 with
          | some err => .ret ("", some err)
          | none =>
            match (jsonUnmarshal text TranscriptResults.zero).1.Results.Transcripts.toList with
            | [] => .panic (.indexOutOfRange 0 0)
            | first :: _ => .ret (first.Transcript, none))

/-- Go: `getTextFromFile`. -/
def getTextFromFile (w : World) (filename : String) : Run (String × Option GoError) :=
  match w.osOpen filename with
  | .error err => ([.osOpen filename], .ret ("", some err))
  | .ok file =>
    ([.osOpen filename, .readAll file, .fileClose file],
      match w.readAll file with
      | .error err => .ret ("", some err)
      | .ok b => .ret (b, none))

/-! ## `RunTranscription` -/

/-- How the polling loop of `RunTranscription` is left: by `break`, by the
`return` of an error, or by a panic of the status query. -/
inductive LoopExit where
  | done (duration : Int)
  | failed (duration : Int) (err : GoError)
  | panicked (p : Panic)
  deriving DecidableEq, Repr

/-- The `for` loop of `RunTranscription`, run for at most `fuel` status queries,
starting with query number `call` and with `duration` seconds counted so far.
The result is `none` when the loop is still running after `fuel` queries. -/
def pollLoop (w : World) (jobName : String) (sleepSeconds ts : Int) :
    Nat → Nat → Int → Option (List Event × LoopExit)
  | 0, _, _ => none
  | fuel + 1, call, duration =>
    match (isTranscriptionDone w call jobName).2 with
    | .panic p => some ((isTranscriptionDone w call jobName).1, .panicked p)
    | .ret (_, some err) => some ((isTranscriptionDone w call jobName).1, .failed duration err)
    | .ret (true, none) => some ((isTranscriptionDone w call jobName).1, .done duration)
    | .ret (false, none) =>
      (pollLoop w jobName sleepSeconds ts fuel (call + 1) (wrapInt64 (duration + sleepSeconds))).map
        fun r => ((isTranscriptionDone w call jobName).1 ++ Event.sleep ts :: r.1, r.2)

/-- The part of `RunTranscription` after the loop was left by `break`. -/
def afterLoop (w : World) (outputBucket jobName resultsFile : String) (duration : Int) :
    Run (Int × Option GoError) :=
  match (getResultURI w jobName).2 with
  | .panic p => ((getResultURI w jobName).1, .panic p)
  | .ret (_, some err) => ((getResultURI w jobName).1, .ret (duration, some err))
  | .ret (resultsURI, none) =>
    match (getTextFromURI w outputBucket resultsURI).2 with
    | .panic p => ((getResultURI w jobName).1 ++ (getTextFromURI w outputBucket resultsURI).1, .panic p)
    | .ret (_, some err) =>
      ((getResultURI w jobName).1 ++ (getTextFromURI w outputBucket resultsURI).1,
        .ret (duration, some err))
    | .ret (text, none) =>
      ((getResultURI w jobName).1 ++ (getTextFromURI w outputBucket resultsURI).1
          ++ (getTextFromFile w resultsFile).1,
        match (getTextFromFile w resultsFile).2 with
        | .panic p => .panic p
        | .ret (_, some err) => .ret (duration, some err)
        | .ret (expected, none) =>
          if text ≠ expected then
            .ret (duration, some (.errorsNew
              ("Did NOT get the expected results. Got:\n" ++ text ++ "' instead of: '" ++ expected ++ "'")))
          else .ret (duration, none))

/-- Go: `RunTranscription`, with at most `fuel` status queries.  `sleepSeconds`
is an `int64`.  The result is `none` when the polling loop is still running
after `fuel` queries. -/
def RunTranscription (w : World) (fuel : Nat)
    (audioFile inputBucket outputBucket jobName resultsFile : String) (sleepSeconds : Int) :
    Option (Run (Int × Option GoError)) :=
  match (dropFile w audioFile inputBucket).2 with
  | .panic p => some ((dropFile w audioFile inputBucket).1, .panic p)
  | .ret (_, some err) => some ((dropFile w audioFile inputBucket).1, .ret (0, some err))
  | .ret (fileURI, none) =>
    match (startTranscription w fileURI outputBucket jobName).2 with
    | .panic p =>
      some ((dropFile w audioFile inputBucket).1
        ++ (startTranscription w fileURI outputBucket jobName).1, .panic p)
    | .ret (some err) =>
      some ((dropFile w audioFile inputBucket).1
        ++ (startTranscription w fileURI outputBucket jobName).1, .ret (0, some err))
    | .ret none =>
      match pollLoop w jobName sleepSeconds (multiplyDuration sleepSeconds timeSecond) fuel 0 0 with
      | none => none
      | some (polls, .panicked p) =>
        some ((dropFile w audioFile inputBucket).1
          ++ (startTranscription w fileURI outputBucket jobName).1 ++ polls, .panic p)
      | some (polls, .failed duration err) =>
        some ((dropFile w audioFile inputBucket).1
          ++ (startTranscription w fileURI outputBucket jobName).1 ++ polls, .ret (duration, some err))
      | some (polls, .done duration) =>
        some ((dropFile w audioFile inputBucket).1
          ++ (startTranscription w fileURI outputBucket jobName).1 ++ polls
          ++ (afterLoop w outputBucket jobName resultsFile duration).1,
          (afterLoop w outputBucket jobName resultsFile duration).2)

/-! ## Descriptions of traces, and worlds used in examples -/

/-- Whether an event is a status query. -/
def Event.isPoll : Event → Bool
  | .listTranscriptionJobs _ => true
  | _ => false

/-- Whether an event is a sleep. -/
def Event.isSleep : Event → Bool
  | .sleep _ => true
  | _ => false

/-- The events of `n` rounds of the polling loop that found the job pending:
a status query followed by a sleep, `n` times. -/
def pendingEvents (jobName : String) (ts : Int) : Nat → List Event
  | 0 => []
  | n + 1 => .listTranscriptionJobs jobName :: .sleep ts :: pendingEvents jobName ts n

/-- The answer of the service listing one job with the given status. -/
def listAnswer (status : Option String) : Except GoError ListTranscriptionJobsOutput :=
  .ok { TranscriptionJobSummaries := [some { TranscriptionJobStatus := status }] }

/-- Status answers: `pending` times `IN_PROGRESS`, then always `last`. -/
def pollsThen (pending : Nat) (last : Except GoError ListTranscriptionJobsOutput) (n : Nat) :
    Except GoError ListTranscriptionJobsOutput :=
  if n < pending then listAnswer (some "IN_PROGRESS") else last

/-- A world in which every call succeeds: the `n`-th status query is answered
by `polls n`, the transcript object has the content `body` and every local file
has the content `expected`. -/
def exampleWorld (polls : Nat → Except GoError ListTranscriptionJobsOutput)
    (body expected : String) : World :=
  { osOpen := fun path => .ok { path := path }
    readAll := fun _ => .ok expected
    upload := fun _ _ _ => .ok ()
    startTranscriptionJob := fun _ => .ok ()
    listTranscriptionJobs := fun n _ => polls n
    getTranscriptionJob := fun job =>
      .ok ⟨some ⟨some ⟨some ("s3://out/" ++ job ++ ".json")⟩⟩⟩
    getObject := fun _ _ => .ok { Body := .ok body } }

/-- The transcript body of the specification's example. -/
def helloBody : String :=
  "\x7b\"results\":\x7b\"transcripts\":[\x7b\"transcript\":\"hello world\"\x7d]\x7d\x7d"

/-- Drops the slashes at the end of a path. -/
def dropTrailingSlashes (path : List Char) : List Char :=
  (path.reverse.dropWhile (fun c => c = '/')).reverse

/-- Spec: the base name of a local path, its last path component: the part
after the last slash once trailing slashes are dropped, `.` for the empty path
and `/` for a path made of slashes (the result of Go's `filepath.Base` on a
path with `/` as separator). -/
def baseName (path : String) : String :=
  if path.data = [] then "."
  else
    match (stringsSplit (dropTrailingSlashes path.data) '/').getLast? with
    | some (c :: cs) => String.mk (c :: cs)
    | _ => "/"

/-- Whether the first `n` status queries for a job all find it pending, that
is, `isTranscriptionDone` returns `(false, nil)` for each of them. -/
def PollsPending (w : World) (jobName : String) (n : Nat) : Prop :=
  ∀ i, i < n → (isTranscriptionDone w i jobName).2 = .ret (false, none)

instance (w : World) (jobName : String) (n : Nat) : Decidable (PollsPending w jobName n) := by
  unfold PollsPending
  infer_instance

/-- The running total of the polling loop after `n` further rounds that found
the job pending, starting from `duration`. -/
def totalAfter (sleepSeconds : Int) : Nat → Int → Int
  | 0, duration => duration
  | n + 1, duration => totalAfter sleepSeconds n (wrapInt64 (duration + sleepSeconds))

/-! ## `main` -/

/-- The values of the command-line flags of `main`. -/
structure Flags where
  inputBucket : String
  outputBucket : String
  audioFile : String
  resultFile : String
  sleepSeconds : Int
  jobName : String
  deriving DecidableEq, Repr

/-- The default values `main` gives to its flags. -/
def flagDefaults : Flags :=
  { inputBucket := "", outputBucket := "", audioFile := "FourScore.wav",
    resultFile := "FourScoreResult.txt", sleepSeconds := 10, jobName := "ConvertAudioToText" }

/-- Go: the values of the flag variables when `main` reads them.  `main`
defines its flags with `flag.String` and `flag.Int64` and never calls
`flag.Parse`, so for every command line each variable holds its default. -/
def flagValues (_args : List String) : Flags := flagDefaults

/-- Go: the condition under which `main` prints its usage message and returns. -/
def usageCondition (f : Flags) : Bool :=
  f.inputBucket = "" || f.outputBucket = "" || f.audioFile = "" || f.resultFile = ""
    || decide (f.sleepSeconds < 0) || f.jobName = ""

/-- The usage message of `main`. -/
def usageMessage : String :=
  "You must supply a value for region, input bucket, output bucket, audio file, result file, and job name. Also, a sleep value must be > 0"

/-- Go: `main` from the test of the flag values on, for given flag values.
`session` is the result of `session.NewSessionWithOptions`, which
`session.Must` turns into a panic when it is an error; `strconv.Itoa(int(d))`
is the decimal text of `d` (on a platform whose `int` has 64 bits). -/
def mainBody (session : Except GoError World) (fuel : Nat) (f : Flags) : Option (Run Unit) :=
  if usageCondition f then some ([.println usageMessage], .ret ())
  else
    match session with
    | .error err => some ([], .panic (.raised err))
    | .ok w =>
      match RunTranscription w fuel f.audioFile f.inputBucket f.outputBucket f.jobName
          f.resultFile f.sleepSeconds with
      | none => none
      | some (trace, .panic p) => some (trace, .panic p)
      | some (trace, .ret (duration, some err)) =>
        some (trace ++
          [.println ("Transcription failed after " ++ toString duration ++ " seconds with error:"),
           .printlnError err], .ret ())
      | some (trace, .ret (duration, none)) =>
        some (trace ++
          [.println ("Transcription was successful after waiting " ++ toString duration
            ++ " seconds")], .ret ())

/-- Go: `main`, started with the command-line arguments `args`. -/
def main (session : Except GoError World) (fuel : Nat) (args : List String) : Option (Run Unit) :=
  mainBody session fuel (flagValues args)

/-! ## The transcript of a JSON value, read as the specification words it -/

/-- Spec: the value of the last member of an object whose key names the field
`name`; a key that occurs again later replaces the earlier one. -/
def lastMember (name : String) : List (String × JValue) → Option JValue
  | [] => none
  | kv :: rest =>
    match lastMember name rest with
    | some v => some v
    | none => if fieldMatches name kv.1 then some kv.2 else none

/-- Spec: `results.transcripts[0].transcript` of a JSON value: the string
under `transcript` in the first element of the array under `transcripts` in
the object under `results`; `none` when the value has not that shape. -/
def firstTranscriptOf : JValue → Option String
  | .object top =>
    match lastMember "results" top with
    | some (.object results) =>
      match lastMember "transcripts" results with
      | some (.array (.object entry :: _)) =>
        match lastMember "transcript" entry with
        | some (.str t) => some t
        | _ => none
      | _ => none
    | _ => none
  | _ => none

/-- A character that stands for itself inside a JSON string: not the quote,
not the backslash and not a control character. -/
def isPlainChar (c : Char) : Bool := c != '"' && c != '\\' && decide (0x20 ≤ c.toNat)

/-- The transcript body of the specification's example with the text `t` in
the place of `hello world`. -/
def transcriptBody (t : String) : String :=
  "\x7b\"results\":\x7b\"transcripts\":[\x7b\"transcript\":\"" ++ t ++ "\"\x7d]\x7d\x7d"

/-- A transcript body with two transcripts, items and further fields. -/
def richBody : String :=
  "\x7b\"jobName\":\"job\",\"results\":\x7b\"transcripts\":[\x7b\"transcript\":\"four score\"\x7d,\x7b\"transcript\":\"and seven\"\x7d],\"items\":[\x7b\"start_time\":\"0.1\",\"alternatives\":[\x7b\"confidence\":\"0.9\",\"content\":\"four\"\x7d],\"type\":\"pronunciation\"\x7d]\x7d,\"status\":\"COMPLETED\"\x7d"

/-! ## Theorems -/

/-- C1: for a successful list answer whose first summary is present,
`isTranscriptionDone` returns `(false, "Job failed")` when the status is
`FAILED`, `(true, nil)` when it is `COMPLETED`, and `(false, nil)` for every
other status and for a nil status; so it returns an error exactly when the
status is `FAILED`. -/
theorem isTranscriptionDone_status (w : World) (call : Nat) (jobName : String)
    (result : ListTranscriptionJobsOutput) (summary : TranscriptionJobSummary)
    (rest : List (Option TranscriptionJobSummary))
    (hcall : w.listTranscriptionJobs call jobName = .ok result)
    (hfirst : result.TranscriptionJobSummaries = some summary :: rest) :
    (summary.TranscriptionJobStatus = some "FAILED" →
      (isTranscriptionDone w call jobName).2 = .ret (false, some (.errorsNew "Job failed"))) ∧
    (summary.TranscriptionJobStatus = some "COMPLETED" →
      (isTranscriptionDone w call jobName).2 = .ret (true, none)) ∧
    (summary.TranscriptionJobStatus ≠ some "FAILED" →
      summary.TranscriptionJobStatus ≠ some "COMPLETED" →
      (isTranscriptionDone w call jobName).2 = .ret (false, none)) ∧
    ((∃ done err, (isTranscriptionDone w call jobName).2 = .ret (done, some err)) ↔
      summary.TranscriptionJobStatus = some "FAILED") := by
  have hfc : ("FAILED" : String) ≠ "COMPLETED" := by decide
  cases hs : summary.TranscriptionJobStatus with
  | none => simp [isTranscriptionDone, hcall, hfirst, hs]
  | some status =>
    by_cases h1 : status = "COMPLETED"
    · subst h1
      simp [isTranscriptionDone, hcall, hfirst, hs]
    · by_cases h2 : status = "FAILED"
      · subst h2
        simp [isTranscriptionDone, hcall, hfirst, hs]
      · simp [isTranscriptionDone, hcall, hfirst, hs, h1, h2]

/-- Witness of C1: the three kinds of status at concrete answers of the service. -/
theorem isTranscriptionDone_status_witness :
    (isTranscriptionDone (exampleWorld (fun _ => listAnswer (some "FAILED")) "" "") 0 "job").2
      = .ret (false, some (.errorsNew "Job failed")) ∧
    (isTranscriptionDone (exampleWorld (fun _ => listAnswer (some "COMPLETED")) "" "") 0 "job").2
      = .ret (true, none) ∧
    (isTranscriptionDone (exampleWorld (fun _ => listAnswer (some "QUEUED")) "" "") 0 "job").2
      = .ret (false, none) ∧
    (isTranscriptionDone (exampleWorld (fun _ => listAnswer none) "" "") 0 "job").2
      = .ret (false, none) :=
  ⟨(isTranscriptionDone_status (exampleWorld (fun _ => listAnswer (some "FAILED")) "" "") 0 "job"
      _ ⟨some "FAILED"⟩ [] rfl rfl).1 rfl,
   (isTranscriptionDone_status (exampleWorld (fun _ => listAnswer (some "COMPLETED")) "" "") 0 "job"
      _ ⟨some "COMPLETED"⟩ [] rfl rfl).2.1 rfl,
   (isTranscriptionDone_status (exampleWorld (fun _ => listAnswer (some "QUEUED")) "" "") 0 "job"
      _ ⟨some "QUEUED"⟩ [] rfl rfl).2.2.1 (by decide) (by decide),
   (isTranscriptionDone_status (exampleWorld (fun _ => listAnswer none) "" "") 0 "job"
      _ ⟨none⟩ [] rfl rfl).2.2.1 (by decide) (by decide)⟩

/-- C2: on a successful list answer with no job summary the index expression
`result.TranscriptionJobSummaries[0]` panics, so `isTranscriptionDone` does not
return `(false, nil)`; shown for the answer with an empty list to the first
status query for the job `ConvertAudioToText`. -/
theorem isTranscriptionDone_empty_list_panics :
    (isTranscriptionDone
        (exampleWorld (fun _ => .ok { TranscriptionJobSummaries := [] }) "" "") 0
        "ConvertAudioToText").2
      = .panic (.indexOutOfRange 0 0) := by
  rfl

/-! ### The JSON reader and the stores of `json.Unmarshal` -/

/-- The struct stored from an object is the fold of the field stores over its members. -/
theorem storeStruct_object_fst {σ : Type} (setField : σ → String → JValue → σ × Bool)
    (members : List (String × JValue)) (cur : σ) :
    (storeStruct setField cur (.object members)).1
      = members.foldl (fun c kv => (setField c kv.1 kv.2).1) cur := by
  have h : ∀ (l : List (String × JValue)) (c : σ) (b : Bool),
      (l.foldl (fun acc kv => ((setField acc.1 kv.1 kv.2).1, acc.2 && (setField acc.1 kv.1 kv.2).2))
        (c, b)).1 = l.foldl (fun c kv => (setField c kv.1 kv.2).1) c := by
    intro l
    induction l with
    | nil => intro c b; rfl
    | cons kv rest ih => intro c b; simp only [List.foldl_cons, ih]
  exact h members cur true

/-- Members that do not name a field leave it as it was. -/
theorem foldl_no_member {σ β : Type} (name : String) (step : σ → String × JValue → σ)
    (get : σ → β)
    (hother : ∀ cur kv, fieldMatches name kv.1 = false → get (step cur kv) = get cur) :
    ∀ (members : List (String × JValue)) (cur : σ),
      lastMember name members = none → get (members.foldl step cur) = get cur
  | [], _, _ => rfl
  | kv :: rest, cur, h => by
    have hrest : lastMember name rest = none := by
      cases hr : lastMember name rest with
      | none => rfl
      | some v => simp [lastMember, hr] at h
    have hkv : fieldMatches name kv.1 = false := by
      cases hk : fieldMatches name kv.1 with
      | false => rfl
      | true => simp [lastMember, hrest, hk] at h
    rw [List.foldl_cons, foldl_no_member name step get hother rest _ hrest, hother cur kv hkv]

/-- A field holds what the last member naming it stored. -/
theorem foldl_last_member {σ β : Type} (name : String) (step : σ → String × JValue → σ)
    (get : σ → β) (upd : β → JValue → β)
    (hmatch : ∀ cur kv, fieldMatches name kv.1 = true → get (step cur kv) = upd (get cur) kv.2)
    (hother : ∀ cur kv, fieldMatches name kv.1 = false → get (step cur kv) = get cur) :
    ∀ (members : List (String × JValue)) (cur : σ) (v : JValue),
      lastMember name members = some v → ∃ before, get (members.foldl step cur) = upd before v
  | [], _, _, h => by simp [lastMember] at h
  | kv :: rest, cur, v, h => by
    cases hr : lastMember name rest with
    | some v2 =>
      have hv : v2 = v := by simpa [lastMember, hr] using h
      subst hv
      exact foldl_last_member name step get upd hmatch hother rest (step cur kv) v2 hr
    | none =>
      have hkv : fieldMatches name kv.1 = true ∧ kv.2 = v := by
        cases hk : fieldMatches name kv.1 with
        | false => simp [lastMember, hr, hk] at h
        | true => simpa [lastMember, hr, hk] using h
      refine ⟨get cur, ?_⟩
      rw [List.foldl_cons, foldl_no_member name step get hother rest _ hr, hmatch cur kv hkv.1,
        hkv.2]

/-- A key that names a field has the case folding of the field name. -/
theorem fieldMatches_folded (name key : String) (h : fieldMatches name key = true) :
    key.data.map foldChar = name.data.map foldChar := by
  unfold fieldMatches at h
  simp only [Bool.or_eq_true, decide_eq_true_eq] at h
  rcases h with h | h
  · rw [h]
  · exact h

/-- A key names at most one of two fields whose names differ under case folding. -/
theorem fieldMatches_of_folded_ne (name other key : String)
    (hne : other.data.map foldChar ≠ name.data.map foldChar)
    (h : fieldMatches name key = true) : fieldMatches other key = false := by
  have hk := fieldMatches_folded name key h
  cases ho : fieldMatches other key with
  | false => rfl
  | true => exact absurd ((fieldMatches_folded other key ho).symm.trans hk) hne

/-- Storing an array gives one element for each of its values. -/
theorem storeElements_length {α : Type} (zero : α) (store : α → JValue → α × Bool) :
    ∀ (vs : List JValue) (backing : List α),
      (storeElements zero store vs backing).1.length = vs.length
  | [], _ => rfl
  | v :: vs, backing => by
    simp [storeElements, storeElements_length zero store vs backing.tail]

/-- The slice stored from a non-empty array holds the stored elements. -/
theorem storeSlice_array_toList {α : Type} (zero : α) (store : α → JValue → α × Bool)
    (cur : GoSlice α) (e : JValue) (es : List JValue) :
    (storeSlice zero store cur (.array (e :: es))).1.toList
      = (store (cur.backing.headD zero) e).1 :: (storeElements zero store es cur.backing.tail).1 := by
  have hlen := storeElements_length zero store (e :: es) cur.backing
  simp only [storeSlice, GoSlice.toList]
  rw [← hlen, List.take_left']
  · rfl
  · rfl

/-- An element of `Transcripts` stored from an object holds the string of its last `transcript` member. -/
theorem storeEntry_transcript (cur : TranscriptEntry) (entry : List (String × JValue)) (t : String)
    (h : lastMember "transcript" entry = some (.str t)) :
    (storeStruct TranscriptEntry.setField cur (.object entry)).1.Transcript = t := by
  rw [storeStruct_object_fst]
  obtain ⟨before, hb⟩ := foldl_last_member "transcript"
    (fun (c : TranscriptEntry) kv => (TranscriptEntry.setField c kv.1 kv.2).1)
    (fun c => c.Transcript) (fun b v => (storeString b v).1)
    (by intro c kv hk; simp [TranscriptEntry.setField, hk])
    (by intro c kv hk; simp [TranscriptEntry.setField, hk])
    entry cur _ h
  rw [hb]
  rfl

/-- The `Transcripts` stored from an object start with the element of the last `transcripts` member. -/
theorem storeResults_transcripts (cur : ResultsBlock) (results entry : List (String × JValue))
    (more : List JValue) (t : String)
    (h : lastMember "transcripts" results = some (.array (.object entry :: more)))
    (ht : lastMember "transcript" entry = some (.str t)) :
    ∃ first rest,
      (storeStruct ResultsBlock.setField cur (.object results)).1.Transcripts.toList = first :: rest
        ∧ first.Transcript = t := by
  rw [storeStruct_object_fst]
  obtain ⟨before, hb⟩ := foldl_last_member "transcripts"
    (fun (c : ResultsBlock) kv => (ResultsBlock.setField c kv.1 kv.2).1)
    (fun c => c.Transcripts)
    (fun b v => (storeSlice TranscriptEntry.zero (storeStruct TranscriptEntry.setField) b v).1)
    (by intro c kv hk; simp [ResultsBlock.setField, hk])
    (by
      intro c kv hk
      simp only [ResultsBlock.setField, hk, Bool.false_eq_true, if_false]
      split <;> rfl)
    results cur _ h
  rw [hb, storeSlice_array_toList]
  exact ⟨_, _, rfl, storeEntry_transcript _ entry t ht⟩

/-- The `Results.Transcripts` stored from an object start with the element reached through the last `results` member. -/
theorem storeTop_transcripts (cur : TranscriptResults) (top results entry : List (String × JValue))
    (more : List JValue) (t : String)
    (htop : lastMember "results" top = some (.object results))
    (h : lastMember "transcripts" results = some (.array (.object entry :: more)))
    (ht : lastMember "transcript" entry = some (.str t)) :
    ∃ first rest,
      (storeStruct TranscriptResults.setField cur (.object top)).1.Results.Transcripts.toList
        = first :: rest ∧ first.Transcript = t := by
  rw [storeStruct_object_fst]
  obtain ⟨before, hb⟩ := foldl_last_member "results"
    (fun (c : TranscriptResults) kv => (TranscriptResults.setField c kv.1 kv.2).1)
    (fun c => c.Results) (fun b v => (storeStruct ResultsBlock.setField b v).1)
    (by
      intro c kv hk
      have h1 := fieldMatches_of_folded_ne "results" "jobName" kv.1 (by decide) hk
      have h2 := fieldMatches_of_folded_ne "results" "accountId" kv.1 (by decide) hk
      simp [TranscriptResults.setField, hk, h1, h2])
    (by
      intro c kv hk
      simp only [TranscriptResults.setField, hk, Bool.false_eq_true, if_false]
      split
      · rfl
      · split
        · rfl
        · split <;> rfl)
    top cur _ htop
  rw [hb]
  exact storeResults_transcripts before results entry more t h ht

/-- The shape of a JSON value that has a first transcript. -/
theorem firstTranscriptOf_shape (v : JValue) (t : String) (h : firstTranscriptOf v = some t) :
    ∃ top results entry more, v = .object top ∧
      lastMember "results" top = some (.object results) ∧
      lastMember "transcripts" results = some (.array (.object entry :: more)) ∧
      lastMember "transcript" entry = some (.str t) := by
  unfold firstTranscriptOf at h
  split at h
  · rename_i top
    split at h
    · rename_i results hres
      split at h
      · rename_i entry more htr
        split at h
        · rename_i t2 hent
          have : t2 = t := by simpa using h
          subst this
          exact ⟨top, results, entry, more, rfl, hres, htr, hent⟩
        · simp at h
      · simp at h
    · simp at h
  · simp at h

/-- A run of plain characters up to a quote is read as it stands. -/
theorem scanString_plain (rest : List Char) :
    ∀ (t : List Char) (fuel : Nat), (∀ c ∈ t, isPlainChar c = true) → t.length < fuel →
      scanString fuel (t ++ '"' :: rest) = some (t, rest)
  | [], 0, _, h => by simp at h
  | [], fuel + 1, _, _ => by simp [scanString]
  | c :: t, 0, _, h => by simp at h
  | c :: t, fuel + 1, hp, h => by
    have hc : isPlainChar c = true := hp c (by simp)
    simp only [isPlainChar, Bool.and_eq_true, bne_iff_ne, ne_eq, decide_eq_true_eq] at hc
    have ih := scanString_plain rest t fuel (fun x hx => hp x (by simp [hx]))
      (by simpa using h)
    have hlt : ¬ c.toNat < 32 := by omega
    simp [scanString, hc.1.1, hc.1.2, hlt, ih]

/-- A value that starts with a quote is a string. -/
theorem parseValue_quote (fuel depth : Nat) (s : List Char) :
    parseValue (fuel + 1) depth ('"' :: s)
      = (scanString (s.length + 1) s).map fun p => (.str (String.mk p.1), p.2) := rfl

/-- A value that starts with a brace and a quote is an object with members. -/
theorem parseValue_brace (fuel depth : Nat) (r : List Char) :
    parseValue (fuel + 1) depth ('{' :: '"' :: r)
      = if maxNestingDepth < depth + 1 then none
        else (parseMembers fuel (depth + 1) ('"' :: r)).map fun p => (.object p.1, p.2) := rfl

/-- A value that starts with a bracket and a brace is an array with elements. -/
theorem parseValue_bracket (fuel depth : Nat) (r : List Char) :
    parseValue (fuel + 1) depth ('[' :: '{' :: r)
      = if maxNestingDepth < depth + 1 then none
        else (parseElements fuel (depth + 1) ('{' :: r)).map fun p => (.array p.1, p.2) := rfl

/-- An element followed by the closing bracket is the last one. -/
theorem parseElements_last (fuel depth : Nat) (cs rest : List Char) (v : JValue)
    (hv : parseValue fuel depth cs = some (v, ']' :: rest)) :
    parseElements (fuel + 1) depth cs = some ([v], rest) := by
  rw [parseElements, hv]
  rfl

/-- A member with a plain key followed by the closing brace is the only one. -/
theorem parseMembers_single (fuel depth : Nat) (key body rest : List Char) (v : JValue)
    (hp : ∀ c ∈ key, isPlainChar c = true)
    (hv : parseValue fuel depth body = some (v, '}' :: rest)) :
    parseMembers (fuel + 1) depth ('"' :: (key ++ '"' :: ':' :: body))
      = some ([(String.mk key, v)], rest) := by
  have hs : ∀ f, key.length < f →
      scanString f (key ++ '"' :: ':' :: body) = some (key, ':' :: body) :=
    fun f hf => scanString_plain (':' :: body) key f hp hf
  simp [parseMembers, skipSpace, isSpace]
  rw [hs _ (by omega)]
  simp [skipSpace, isSpace, hv]

/-- A string of plain characters is read as it stands. -/
theorem parseValue_string (fuel depth : Nat) (t rest : List Char)
    (hp : ∀ c ∈ t, isPlainChar c = true) :
    parseValue (fuel + 1) depth ('"' :: (t ++ '"' :: rest)) = some (.str (String.mk t), rest) := by
  rw [parseValue_quote, scanString_plain rest t _ hp (by simp; omega)]
  rfl

/-- An object is read from its members. -/
theorem parseValue_object (fuel depth : Nat) (r rest : List Char)
    (ms : List (String × JValue)) (hd : depth < maxNestingDepth)
    (hm : parseMembers fuel (depth + 1) ('"' :: r) = some (ms, rest)) :
    parseValue (fuel + 1) depth ('{' :: '"' :: r) = some (.object ms, rest) := by
  rw [parseValue_brace, if_neg (by omega), hm]
  rfl

/-- An array of one object is read from that object. -/
theorem parseValue_array_single (fuel depth : Nat) (r rest : List Char) (v : JValue)
    (hd : depth < maxNestingDepth)
    (hv : parseValue fuel (depth + 1) ('{' :: r) = some (v, ']' :: rest)) :
    parseValue (fuel + 2) depth ('[' :: '{' :: r) = some (.array [v], rest) := by
  rw [parseValue_bracket, if_neg (by omega), parseElements_last fuel (depth + 1) _ rest v hv]
  rfl

/-- The characters of the example body with the text `t`. -/
theorem transcriptBody_data (t : String) :
    (transcriptBody t).data
      = '{' :: '"' :: ("results".data ++ '"' :: ':' :: '{' :: '"' :: ("transcripts".data
          ++ '"' :: ':' :: '[' :: '{' :: '"' :: ("transcript".data ++ '"' :: ':' :: '"'
          :: (t.data ++ '"' :: '}' :: ']' :: '}' :: '}' :: [])))) := by
  simp [transcriptBody, String.data_append]

/-- The example body with a plain text `t` is read as the JSON value it writes. -/
theorem parseJSON_transcriptBody (t : String) (hp : ∀ c ∈ t.data, isPlainChar c = true) :
    parseJSON (transcriptBody t)
      = some (.object [("results", .object [("transcripts",
          .array [.object [("transcript", .str t)]])])]) := by
  have hfuel : ∃ n, 2 * (transcriptBody t).length + 2 = n + 9 := by
    refine ⟨2 * (transcriptBody t).length + 2 - 9, ?_⟩
    have : 9 ≤ (transcriptBody t).length := by
      rw [String.length, transcriptBody_data]
      simp
    omega
  obtain ⟨n, hn⟩ := hfuel
  have h4 := parseValue_string n 4 t.data ('}' :: ']' :: '}' :: '}' :: []) hp
  have h3 := parseMembers_single (n + 1) 4 "transcript".data _ _ _ (by decide) h4
  have h3v := parseValue_object (n + 2) 3 _ _ _ (by decide) h3
  have h2a := parseValue_array_single (n + 3) 2 _ _ _ (by decide) h3v
  have h2 := parseMembers_single (n + 5) 2 "transcripts".data _ _ _ (by decide) h2a
  have h2v := parseValue_object (n + 6) 1 _ _ _ (by decide) h2
  have h1 := parseMembers_single (n + 7) 1 "results".data _ _ _ (by decide) h2v
  have h0 := parseValue_object (n + 8) 0 _ _ _ (by decide) h1
  unfold parseJSON
  rw [hn, transcriptBody_data, h0]
  rfl

/-- An array opened inside `maxNestingDepth` open arrays and objects is invalid. -/
theorem parseValue_bracket_limit (fuel depth : Nat) (r : List Char)
    (h : maxNestingDepth < depth + 1) : parseValue (fuel + 1) depth ('[' :: r) = none := by
  have step : parseValue (fuel + 1) depth ('[' :: r)
      = if maxNestingDepth < depth + 1 then none
        else
          match skipSpace r with
          | ']' :: r2 => some (.array [], r2)
          | _ => (parseElements fuel (depth + 1) r).map
              fun (p : List JValue × List Char) => (JValue.array p.1, p.2) := rfl
  rw [step, if_pos h]

/-- Opening brackets that pass `maxNestingDepth` make the input invalid. -/
theorem parseValue_too_deep (rest : List Char) :
    ∀ (k fuel depth : Nat), 0 < k → maxNestingDepth < depth + k →
      parseValue fuel depth (List.replicate k '[' ++ rest) = none
  | 0, _, _, hk, _ => by omega
  | _ + 1, 0, _, _, _ => rfl
  | k + 1, fuel + 1, depth, _, h => by
    by_cases hd : maxNestingDepth < depth + 1
    · exact parseValue_bracket_limit fuel depth _ hd
    · obtain ⟨j, rfl⟩ : ∃ j, k = j + 1 := ⟨k - 1, by omega⟩
      have step : parseValue (fuel + 1) depth ('[' :: '[' :: (List.replicate j '[' ++ rest))
          = if maxNestingDepth < depth + 1 then none
            else (parseElements fuel (depth + 1) ('[' :: (List.replicate j '[' ++ rest))).map
              fun (p : List JValue × List Char) => (JValue.array p.1, p.2) := rfl
      have hin : parseElements fuel (depth + 1) ('[' :: (List.replicate j '[' ++ rest)) = none := by
        cases fuel with
        | zero => rfl
        | succ f =>
          have ih := parseValue_too_deep rest (j + 1) f (depth + 1) (by omega) (by omega)
          rw [parseElements]
          simp only [List.replicate_succ, List.cons_append] at ih
          rw [ih]
      simp only [List.replicate_succ, List.cons_append]
      rw [step, if_neg hd, hin]
      rfl

/-- A text that opens more than `maxNestingDepth` arrays is not read:
`json.Unmarshal` returns an error for it. -/
theorem parseJSON_too_deep (rest : List Char) (k : Nat) (hk : maxNestingDepth < k) :
    parseJSON (String.mk (List.replicate k '[' ++ rest)) = none := by
  unfold parseJSON
  rw [parseValue_too_deep rest k _ 0 (by omega) (by omega)]

/-- C4: when the fetched body is read by `json.Unmarshal` without error,
`getTextFromURI` returns `results.transcripts[0].transcript` and a nil error,
whatever the later transcripts, the items and the other fields are: the
`Transcript` of the first element of `Results.Transcripts` of the struct that
was read, which is the first transcript of the JSON value of the body as the
specification words it; so the example body of the specification with any
plain text `t` in the place of `hello world` gives `t`, and the example body
gives `hello world`. -/
theorem getTextFromURI_first_transcript (w : World) (outputBucket uri : String)
    (part : List Char) (result : GetObjectOutput) (text : String)
    (hkey : (stringsSplit uri.data '/').getLast? = some part)
    (hget : w.getObject outputBucket (String.mk part) = .ok result)
    (hbody : result.Body = .ok text) :
    (∀ (first : TranscriptEntry) (rest : List TranscriptEntry),
      (jsonUnmarshal text TranscriptResults.zero).2 = none →
      (jsonUnmarshal text TranscriptResults.zero).1.Results.Transcripts.toList = first :: rest →
      getTextFromURI w outputBucket uri
        = ([.getObject outputBucket (String.mk part)], .ret (first.Transcript, none))) ∧
    (∀ (v : JValue) (t : String), parseJSON text = some v → firstTranscriptOf v = some t →
      (jsonUnmarshal text TranscriptResults.zero).2 = none →
      getTextFromURI w outputBucket uri
        = ([.getObject outputBucket (String.mk part)], .ret (t, none))) ∧
    (∀ t : String, (∀ c ∈ t.data, isPlainChar c = true) → text = transcriptBody t →
      getTextFromURI w outputBucket uri
        = ([.getObject outputBucket (String.mk part)], .ret (t, none))) ∧
    (text = helloBody →
      getTextFromURI w outputBucket uri
        = ([.getObject outputBucket (String.mk part)], .ret ("hello world", none))) := by
  have key : ∀ (first : TranscriptEntry) (rest : List TranscriptEntry),
      (jsonUnmarshal text TranscriptResults.zero).2 = none →
      (jsonUnmarshal text TranscriptResults.zero).1.Results.Transcripts.toList = first :: rest →
      getTextFromURI w outputBucket uri
        = ([.getObject outputBucket (String.mk part)], .ret (first.Transcript, none)) := by
    intro first rest hjson hfirst
    simp only [getTextFromURI, hkey, hget, hbody, hjson, hfirst]
  have byValue : ∀ (v : JValue) (t : String), parseJSON text = some v →
      firstTranscriptOf v = some t →
      (jsonUnmarshal text TranscriptResults.zero).2 = none →
      getTextFromURI w outputBucket uri
        = ([.getObject outputBucket (String.mk part)], .ret (t, none)) := by
    intro v t hparse hshape hjson
    obtain ⟨top, results, entry, more, rfl, htop, htr, hent⟩ := firstTranscriptOf_shape v t hshape
    obtain ⟨first, rest, hlist, hfirst⟩ :=
      storeTop_transcripts TranscriptResults.zero top results entry more t htop htr hent
    have hstore : (jsonUnmarshal text TranscriptResults.zero).1
        = (storeStruct TranscriptResults.setField TranscriptResults.zero (.object top)).1 := by
      simp only [jsonUnmarshal, hparse]
    have hrun := key first rest hjson (by rw [hstore]; exact hlist)
    rw [hfirst] at hrun
    exact hrun
  have byBody : ∀ t : String, (∀ c ∈ t.data, isPlainChar c = true) → text = transcriptBody t →
      getTextFromURI w outputBucket uri
        = ([.getObject outputBucket (String.mk part)], .ret (t, none)) := by
    intro t hp htext
    have hparse := parseJSON_transcriptBody t hp
    rw [← htext] at hparse
    refine byValue _ t hparse rfl ?_
    simp only [jsonUnmarshal, hparse]
    rfl
  refine ⟨key, byValue, byBody, ?_⟩
  intro htext
  exact byBody "hello world" (by decide) (by rw [htext]; rfl)

set_option maxRecDepth 4096 in
/-- Witness of C4: the example body of the specification, and a body with two
transcripts, items and further fields, fetched from the output bucket under
the key `job.json`. -/
theorem getTextFromURI_first_transcript_witness :
    getTextFromURI (exampleWorld (fun _ => listAnswer none) helloBody "") "out" "s3://out/job.json"
      = ([.getObject "out" "job.json"], .ret ("hello world", none)) ∧
    getTextFromURI (exampleWorld (fun _ => listAnswer none) richBody "") "out" "s3://out/job.json"
      = ([.getObject "out" "job.json"], .ret ("four score", none)) ∧
    getTextFromURI (exampleWorld (fun _ => listAnswer none) richBody "") "out" "s3://out/job.json"
      = ([.getObject "out" "job.json"], .ret ((⟨"four score"⟩ : TranscriptEntry).Transcript, none)) ∧
    getTextFromURI (exampleWorld (fun _ => listAnswer none) (transcriptBody "four score") "")
        "out" "s3://out/job.json"
      = ([.getObject "out" "job.json"], .ret ("four score", none)) :=
  ⟨(getTextFromURI_first_transcript (exampleWorld (fun _ => listAnswer none) helloBody "")
      "out" "s3://out/job.json" "job.json".data ⟨.ok helloBody⟩ helloBody
      (by decide) rfl rfl).2.2.2 rfl,
   (getTextFromURI_first_transcript (exampleWorld (fun _ => listAnswer none) richBody "")
      "out" "s3://out/job.json" "job.json".data ⟨.ok richBody⟩ richBody
      (by decide) rfl rfl).2.1 _ "four score" rfl rfl (by decide),
   (getTextFromURI_first_transcript (exampleWorld (fun _ => listAnswer none) richBody "")
      "out" "s3://out/job.json" "job.json".data ⟨.ok richBody⟩ richBody
      (by decide) rfl rfl).1 ⟨"four score"⟩ [⟨"and seven"⟩] (by decide) (by decide),
   (getTextFromURI_first_transcript
      (exampleWorld (fun _ => listAnswer none) (transcriptBody "four score") "")
      "out" "s3://out/job.json" "job.json".data ⟨.ok (transcriptBody "four score")⟩
      (transcriptBody "four score") (by decide) rfl rfl).2.2.1 "four score" (by decide) rfl⟩

/-- C5: when the fetched body is not valid JSON, `getTextFromURI` returns the
empty string together with the error of `json.Unmarshal`; it does not return
a nil error. -/
theorem getTextFromURI_malformed (w : World) (outputBucket uri : String)
    (part : List Char) (result : GetObjectOutput) (text : String)
    (hkey : (stringsSplit uri.data '/').getLast? = some part)
    (hget : w.getObject outputBucket (String.mk part) = .ok result)
    (hbody : result.Body = .ok text)
    (hbad : parseJSON text = none) :
    getTextFromURI w outputBucket uri
      = ([.getObject outputBucket (String.mk part)], .ret ("", some .jsonInvalid)) := by
  have hjson : (jsonUnmarshal text TranscriptResults.zero).2 = some .jsonInvalid := by
    simp [jsonUnmarshal, hbad]
  simp only [getTextFromURI, hkey, hget, hbody, hjson]

/-- Witness of C5: a body cut off in the middle of the object. -/
theorem getTextFromURI_malformed_witness :
    getTextFromURI (exampleWorld (fun _ => listAnswer none) "\x7b\"results\":" "")
        "out" "s3://out/job.json"
      = ([.getObject "out" "job.json"], .ret ("", some .jsonInvalid)) :=
  getTextFromURI_malformed (exampleWorld (fun _ => listAnswer none) "\x7b\"results\":" "")
    "out" "s3://out/job.json" "job.json".data ⟨.ok "\x7b\"results\":"⟩ "\x7b\"results\":"
    (by decide) rfl rfl (Option.isNone_iff_eq_none.mp (by decide))

/-- C6: for a body that is valid JSON without the expected fields,
`json.Unmarshal` returns no error and the index expression
`job.Results.Transcripts[0]` panics, so `getTextFromURI` returns no error
value; shown for the empty object, for an object without `transcripts` and
for an empty `transcripts` list. -/
theorem getTextFromURI_missing_fields_panics :
    getTextFromURI (exampleWorld (fun _ => listAnswer none) "\x7b\x7d" "") "out" "s3://out/job.json"
      = ([.getObject "out" "job.json"], .panic (.indexOutOfRange 0 0)) ∧
    getTextFromURI (exampleWorld (fun _ => listAnswer none) "\x7b\"results\":\x7b\x7d\x7d" "")
        "out" "s3://out/job.json"
      = ([.getObject "out" "job.json"], .panic (.indexOutOfRange 0 0)) ∧
    getTextFromURI
        (exampleWorld (fun _ => listAnswer none) "\x7b\"results\":\x7b\"transcripts\":[]\x7d\x7d" "")
        "out" "s3://out/job.json"
      = ([.getObject "out" "job.json"], .panic (.indexOutOfRange 0 0)) := by
  refine ⟨?_, ?_, ?_⟩ <;> decide

/-- A text without the separator is the only part of its split. -/
theorem stringsSplit_of_not_mem (sep : Char) :
    ∀ cs : List Char, sep ∉ cs → stringsSplit cs sep = [cs]
  | [], _ => rfl
  | c :: cs, h => by
    have hc : c ≠ sep := fun e => h (by simp [e])
    have hcs : sep ∉ cs := fun e => h (by simp [e])
    simp [stringsSplit, hc, stringsSplit_of_not_mem sep cs hcs]

/-- A path without a slash has no trailing slash to drop. -/
theorem dropTrailingSlashes_of_not_mem (cs : List Char) (h : '/' ∉ cs) :
    dropTrailingSlashes cs = cs := by
  unfold dropTrailingSlashes
  have hall : ∀ l : List Char, '/' ∉ l → l.dropWhile (fun c => c = '/') = l := by
    intro l hl
    cases l with
    | nil => rfl
    | cons a t =>
      have ha : a ≠ '/' := fun e => hl (by simp [e])
      simp [List.dropWhile, ha]
  rw [hall cs.reverse (by simpa using h)]
  simp

/-- Counterexample to C8 as stated: for the local path `audio/FourScore.wav`
the `Key` of the upload request is `audio/FourScore.wav` and the returned
locator is `s3://in/audio/FourScore.wav`, while the base name of the path is
`FourScore.wav` and the locator built from it is `s3://in/FourScore.wav`. -/
theorem dropFile_key_not_baseName :
    dropFile (exampleWorld (fun _ => listAnswer none) "" "") "audio/FourScore.wav" "in"
      = ([.osOpen "audio/FourScore.wav",
          .upload "in" "audio/FourScore.wav" ⟨"audio/FourScore.wav"⟩,
          .fileClose ⟨"audio/FourScore.wav"⟩],
         .ret ("s3://in/audio/FourScore.wav", none)) ∧
    baseName "audio/FourScore.wav" = "FourScore.wav" ∧
    "audio/FourScore.wav" ≠ baseName "audio/FourScore.wav" ∧
    "s3://in/audio/FourScore.wav" ≠ "s3://" ++ "in" ++ "/" ++ baseName "audio/FourScore.wav" := by
  refine ⟨?_, ?_, ?_, ?_⟩ <;> decide

/-- C8, amended: when the open and the upload succeed, `dropFile` has called
`uploader.Upload` once, with the container as `Bucket` and the local path as
given as `Key`, and returns `s3://` + container + `/` + path with a nil
error; that `Key` is the base name of the path when the path is not empty and
has no slash.  When the open fails no upload is requested and `dropFile`
returns the empty string and that error, and when the upload fails it returns
the empty string and that error.  Under which key the SDK and the service
store the object is their answer to the request and no part of `dropFile`. -/
theorem dropFile_key_is_path (w : World) (filename inputBucket : String) :
    (∀ file, w.osOpen filename = .ok file → w.upload inputBucket filename file = .ok () →
      dropFile w filename inputBucket
        = ([.osOpen filename, .upload inputBucket filename file, .fileClose file],
           .ret ("s3://" ++ inputBucket ++ "/" ++ filename, none))) ∧
    (filename ≠ "" → '/' ∉ filename.data → baseName filename = filename) ∧
    (∀ err, w.osOpen filename = .error err →
      dropFile w filename inputBucket
        = ([.osOpen filename, .println ("Could not open " ++ filename)], .ret ("", some err))) ∧
    (∀ file err, w.osOpen filename = .ok file → w.upload inputBucket filename file = .error err →
      (dropFile w filename inputBucket).2 = .ret ("", some err)) := by
  refine ⟨?_, ?_, ?_, ?_⟩
  · intro file hopen hup
    simp only [dropFile, hopen, hup]
  · intro hne hslash
    have hdata : filename.data ≠ [] := by
      intro h
      apply hne
      cases filename
      simp_all
    unfold baseName
    rw [if_neg hdata, dropTrailingSlashes_of_not_mem _ hslash,
      stringsSplit_of_not_mem _ _ hslash]
    cases hd : filename.data with
    | nil => exact absurd hd hdata
    | cons c cs =>
      simp only [List.getLast?_singleton]
      cases filename
      simp_all
  · intro err hopen
    simp only [dropFile, hopen]
  · intro file err hopen hup
    simp only [dropFile, hopen, hup]

/-- Witness of C8, amended: a successful upload request for `FourScore.wav`, a
failed open and a failed upload. -/
theorem dropFile_key_is_path_witness :
    dropFile (exampleWorld (fun _ => listAnswer none) "" "") "FourScore.wav" "in"
      = ([.osOpen "FourScore.wav", .upload "in" "FourScore.wav" ⟨"FourScore.wav"⟩,
          .fileClose ⟨"FourScore.wav"⟩], .ret ("s3://in/FourScore.wav", none)) ∧
    baseName "FourScore.wav" = "FourScore.wav" ∧
    dropFile { exampleWorld (fun _ => listAnswer none) "" "" with
                osOpen := fun _ => .error (.remote "no such file") } "FourScore.wav" "in"
      = ([.osOpen "FourScore.wav", .println "Could not open FourScore.wav"],
         .ret ("", some (.remote "no such file"))) ∧
    (dropFile { exampleWorld (fun _ => listAnswer none) "" "" with
                upload := fun _ _ _ => .error (.remote "access denied") } "FourScore.wav" "in").2
      = .ret ("", some (.remote "access denied")) :=
  ⟨(dropFile_key_is_path (exampleWorld (fun _ => listAnswer none) "" "") "FourScore.wav" "in").1
      ⟨"FourScore.wav"⟩ rfl rfl,
   (dropFile_key_is_path (exampleWorld (fun _ => listAnswer none) "" "") "FourScore.wav" "in").2.1
      (by decide) (by decide),
   (dropFile_key_is_path { exampleWorld (fun _ => listAnswer none) "" "" with
      osOpen := fun _ => .error (.remote "no such file") } "FourScore.wav" "in").2.2.1 _ rfl,
   (dropFile_key_is_path { exampleWorld (fun _ => listAnswer none) "" "" with
      upload := fun _ _ _ => .error (.remote "access denied") } "FourScore.wav" "in").2.2.2
      ⟨"FourScore.wav"⟩ _ rfl rfl⟩

/-! ### The polling loop -/

/-- Wrapping an already wrapped summand changes nothing. -/
theorem wrapInt64_add_wrap (a b : Int) : wrapInt64 (wrapInt64 a + b) = wrapInt64 (a + b) := by
  unfold wrapInt64
  omega

/-- An integer in the range of `int64` is its own reduction. -/
theorem wrapInt64_of_range (x : Int) (hlo : -2 ^ 63 ≤ x) (hhi : x < 2 ^ 63) : wrapInt64 x = x := by
  unfold wrapInt64
  omega

/-- The running total after `n` pending rounds, started at a wrapped value. -/
theorem totalAfter_wrap (s : Int) : ∀ (n : Nat) (d : Int),
    totalAfter s n (wrapInt64 d) = wrapInt64 (d + n * s)
  | 0, d => by simp [totalAfter]
  | n + 1, d => by
    rw [totalAfter, wrapInt64_add_wrap, totalAfter_wrap s n (d + s)]
    congr 1
    push_cast
    ring

/-- The running total after `n` pending rounds, started at zero. -/
theorem totalAfter_zero (s : Int) (n : Nat) : totalAfter s n 0 = wrapInt64 (n * s) := by
  have h := totalAfter_wrap s n 0
  have h0 : wrapInt64 0 = 0 := by decide
  rw [h0] at h
  simpa using h

/-- The only event of a status query is the list call. -/
theorem isTranscriptionDone_events (w : World) (call : Nat) (jobName : String) :
    (isTranscriptionDone w call jobName).1 = [.listTranscriptionJobs jobName] := rfl

/-- While the job is pending the loop goes on: `n` pending rounds cost `n`
units of fuel, perform `pendingEvents` and add to the running total. -/
theorem pollLoop_pending (w : World) (jobName : String) (s ts : Int) :
    ∀ (n fuel call : Nat) (d : Int),
      (∀ i, i < n → (isTranscriptionDone w (call + i) jobName).2 = .ret (false, none)) →
      pollLoop w jobName s ts (n + fuel) call d
        = (pollLoop w jobName s ts fuel (call + n) (totalAfter s n d)).map
            fun r => (pendingEvents jobName ts n ++ r.1, r.2)
  | 0, fuel, call, d, _ => by
    simp [pendingEvents, totalAfter]
  | n + 1, fuel, call, d, h => by
    have h0 : (isTranscriptionDone w call jobName).2 = .ret (false, none) := by
      simpa using h 0 (Nat.succ_pos n)
    have hrest : ∀ i, i < n →
        (isTranscriptionDone w (call + 1 + i) jobName).2 = .ret (false, none) := by
      intro i hi
      have := h (i + 1) (Nat.succ_lt_succ hi)
      rwa [show call + (i + 1) = call + 1 + i by omega] at this
    have ih := pollLoop_pending w jobName s ts n fuel (call + 1) (wrapInt64 (d + s)) hrest
    rw [show n + 1 + fuel = (n + fuel) + 1 by omega, pollLoop]
    simp only [h0, ih, isTranscriptionDone_events, Option.map_map]
    rw [show call + 1 + n = call + (n + 1) by omega,
      show totalAfter s (n + 1) d = totalAfter s n (wrapInt64 (d + s)) from rfl]
    generalize pollLoop w jobName s ts fuel (call + (n + 1)) (totalAfter s n (wrapInt64 (d + s))) = o
    cases o with
    | none => rfl
    | some r => simp [pendingEvents]

/-- While the job is pending the loop does not end: after `n` pending answers
and at most `n` queries it is still running. -/
theorem pollLoop_still_running (w : World) (jobName : String) (s ts : Int) :
    ∀ (fuel call : Nat) (d : Int),
      (∀ i, i < fuel → (isTranscriptionDone w (call + i) jobName).2 = .ret (false, none)) →
      pollLoop w jobName s ts fuel call d = none
  | 0, _, _, _ => rfl
  | fuel + 1, call, d, h => by
    have h0 : (isTranscriptionDone w call jobName).2 = .ret (false, none) := by
      simpa using h 0 (Nat.succ_pos fuel)
    have hrest : ∀ i, i < fuel →
        (isTranscriptionDone w (call + 1 + i) jobName).2 = .ret (false, none) := by
      intro i hi
      have := h (i + 1) (Nat.succ_lt_succ hi)
      rwa [show call + (i + 1) = call + 1 + i by omega] at this
    rw [pollLoop]
    simp only [h0, pollLoop_still_running w jobName s ts fuel (call + 1) _ hrest, Option.map_none']

/-- The loop is left by `break` at the first answer `(true, nil)`. -/
theorem pollLoop_done (w : World) (jobName : String) (s ts : Int) (n fuel : Nat)
    (hpending : PollsPending w jobName n)
    (hdone : (isTranscriptionDone w n jobName).2 = .ret (true, none)) (hfuel : n < fuel) :
    pollLoop w jobName s ts fuel 0 0
      = some (pendingEvents jobName ts n ++ [.listTranscriptionJobs jobName],
          .done (wrapInt64 (n * s))) := by
  obtain ⟨m, rfl⟩ : ∃ m, fuel = n + (m + 1) := ⟨fuel - n - 1, by omega⟩
  rw [pollLoop_pending w jobName s ts n (m + 1) 0 0 (by simpa [PollsPending] using hpending)]
  rw [pollLoop]
  simp only [Nat.zero_add, hdone, isTranscriptionDone_events, totalAfter_zero, Option.map_some']

/-- The loop is left by `return` at the first answer with an error. -/
theorem pollLoop_failed (w : World) (jobName : String) (s ts : Int) (n fuel : Nat)
    (flag : Bool) (err : GoError) (hpending : PollsPending w jobName n)
    (hfail : (isTranscriptionDone w n jobName).2 = .ret (flag, some err)) (hfuel : n < fuel) :
    pollLoop w jobName s ts fuel 0 0
      = some (pendingEvents jobName ts n ++ [.listTranscriptionJobs jobName],
          .failed (wrapInt64 (n * s)) err) := by
  obtain ⟨m, rfl⟩ : ∃ m, fuel = n + (m + 1) := ⟨fuel - n - 1, by omega⟩
  rw [pollLoop_pending w jobName s ts n (m + 1) 0 0 (by simpa [PollsPending] using hpending)]
  rw [pollLoop]
  simp only [Nat.zero_add, hfail, isTranscriptionDone_events, totalAfter_zero, Option.map_some']

/-- The loop is left by a panic of the status query. -/
theorem pollLoop_panicked (w : World) (jobName : String) (s ts : Int) (n fuel : Nat)
    (p : Panic) (hpending : PollsPending w jobName n)
    (hpanic : (isTranscriptionDone w n jobName).2 = .panic p) (hfuel : n < fuel) :
    pollLoop w jobName s ts fuel 0 0
      = some (pendingEvents jobName ts n ++ [.listTranscriptionJobs jobName], .panicked p) := by
  obtain ⟨m, rfl⟩ : ∃ m, fuel = n + (m + 1) := ⟨fuel - n - 1, by omega⟩
  rw [pollLoop_pending w jobName s ts n (m + 1) 0 0 (by simpa [PollsPending] using hpending)]
  rw [pollLoop]
  simp only [Nat.zero_add, hpanic, isTranscriptionDone_events, Option.map_some']

/-- The pending rounds hold one status query each. -/
theorem countP_isPoll_pendingEvents (jobName : String) (ts : Int) :
    ∀ n, List.countP Event.isPoll (pendingEvents jobName ts n) = n
  | 0 => rfl
  | n + 1 => by
    simp [pendingEvents, Event.isPoll, countP_isPoll_pendingEvents jobName ts n]

/-- The pending rounds hold one sleep each. -/
theorem countP_isSleep_pendingEvents (jobName : String) (ts : Int) :
    ∀ n, List.countP Event.isSleep (pendingEvents jobName ts n) = n
  | 0 => rfl
  | n + 1 => by
    simp [pendingEvents, Event.isSleep, countP_isSleep_pendingEvents jobName ts n]

/-! ### `RunTranscription` -/

/-- After the loop, every `return` hands back the running total unchanged. -/
theorem afterLoop_outcome (w : World) (outputBucket jobName resultsFile : String) (d : Int) :
    (∃ p, (afterLoop w outputBucket jobName resultsFile d).2 = .panic p) ∨
    (∃ err, (afterLoop w outputBucket jobName resultsFile d).2 = .ret (d, err)) := by
  unfold afterLoop
  split
  · exact Or.inl ⟨_, rfl⟩
  · exact Or.inr ⟨_, rfl⟩
  · split
    · exact Or.inl ⟨_, rfl⟩
    · exact Or.inr ⟨_, rfl⟩
    · dsimp only
      split
      · exact Or.inl ⟨_, rfl⟩
      · exact Or.inr ⟨_, rfl⟩
      · split
        · exact Or.inr ⟨_, rfl⟩
        · exact Or.inr ⟨_, rfl⟩

/-- A run whose upload and submission succeed and whose loop is left by
`break` at query `n` continues with the part after the loop. -/
theorem RunTranscription_done (w : World) (fuel : Nat)
    (audioFile inputBucket outputBucket jobName resultsFile : String) (s : Int)
    (n : Nat) (fileURI : String)
    (hdrop : (dropFile w audioFile inputBucket).2 = .ret (fileURI, none))
    (hstart : (startTranscription w fileURI outputBucket jobName).2 = .ret none)
    (hpending : PollsPending w jobName n)
    (hdone : (isTranscriptionDone w n jobName).2 = .ret (true, none)) (hfuel : n < fuel) :
    RunTranscription w fuel audioFile inputBucket outputBucket jobName resultsFile s
      = some ((dropFile w audioFile inputBucket).1
          ++ (startTranscription w fileURI outputBucket jobName).1
          ++ (pendingEvents jobName (multiplyDuration s timeSecond) n
                ++ [.listTranscriptionJobs jobName])
          ++ (afterLoop w outputBucket jobName resultsFile (wrapInt64 (n * s))).1,
          (afterLoop w outputBucket jobName resultsFile (wrapInt64 (n * s))).2) := by
  unfold RunTranscription
  simp only [hdrop, hstart, pollLoop_done w jobName s _ n fuel hpending hdone hfuel]

/-- A run whose upload and submission succeed and whose loop is left by the
`return` of an error at query `n` returns that error and the running total. -/
theorem RunTranscription_failed (w : World) (fuel : Nat)
    (audioFile inputBucket outputBucket jobName resultsFile : String) (s : Int)
    (n : Nat) (fileURI : String) (flag : Bool) (err : GoError)
    (hdrop : (dropFile w audioFile inputBucket).2 = .ret (fileURI, none))
    (hstart : (startTranscription w fileURI outputBucket jobName).2 = .ret none)
    (hpending : PollsPending w jobName n)
    (hfail : (isTranscriptionDone w n jobName).2 = .ret (flag, some err)) (hfuel : n < fuel) :
    RunTranscription w fuel audioFile inputBucket outputBucket jobName resultsFile s
      = some ((dropFile w audioFile inputBucket).1
          ++ (startTranscription w fileURI outputBucket jobName).1
          ++ (pendingEvents jobName (multiplyDuration s timeSecond) n
                ++ [.listTranscriptionJobs jobName]),
          .ret (wrapInt64 (n * s), some err)) := by
  unfold RunTranscription
  simp only [hdrop, hstart, pollLoop_failed w jobName s _ n fuel flag err hpending hfail hfuel]

/-- Counterexample to C3 as stated: with the poll interval `s = 2^62` and
`k = 3` polls (two pending, then done) the running total overflows `int64`:
`RunTranscription` returns `-2^63`, which is further than `s` from `k * s`. -/
theorem RunTranscription_elapsed_overflow :
    (RunTranscription (exampleWorld (pollsThen 2 (listAnswer (some "COMPLETED"))) helloBody "hello world")
        3 "FourScore.wav" "in" "out" "job" "FourScoreResult.txt" (2 ^ 62)).map Prod.snd
      = some (.ret (-9223372036854775808, none)) ∧
    ¬ (|(-9223372036854775808 : Int) - 3 * 2 ^ 62| ≤ 2 ^ 62) := by
  refine ⟨by decide, by decide⟩

/-- C3, amended: for a poll interval `s ≥ 0` and `k ≥ 1` polls, the first
`k - 1` pending and the `k`-th done, with `(k - 1) * s` in the range of
`int64`, a run whose upload and submission succeed ends, and whenever it
returns, with or without an error of the later steps, the elapsed time it
returns is `(k - 1) * s`, one `s` for each pending poll, which is within `s`
of `k * s`. -/
theorem RunTranscription_elapsed (w : World) (fuel : Nat)
    (audioFile inputBucket outputBucket jobName resultsFile : String) (s : Int)
    (k : Nat) (fileURI : String)
    (hs : 0 ≤ s) (hk : 1 ≤ k) (hrange : ((k - 1 : Nat) : Int) * s < 2 ^ 63)
    (hdrop : (dropFile w audioFile inputBucket).2 = .ret (fileURI, none))
    (hstart : (startTranscription w fileURI outputBucket jobName).2 = .ret none)
    (hpending : PollsPending w jobName (k - 1))
    (hdone : (isTranscriptionDone w (k - 1) jobName).2 = .ret (true, none))
    (hfuel : k ≤ fuel) :
    ∃ trace outcome,
      RunTranscription w fuel audioFile inputBucket outputBucket jobName resultsFile s
        = some (trace, outcome) ∧
      ((∃ p, outcome = .panic p) ∨ (∃ err, outcome = .ret (((k - 1 : Nat) : Int) * s, err))) ∧
      |((k - 1 : Nat) : Int) * s - (k : Int) * s| ≤ s := by
  have hnonneg : 0 ≤ ((k - 1 : Nat) : Int) * s := mul_nonneg (Int.ofNat_nonneg _) hs
  have hwrap : wrapInt64 (((k - 1 : Nat) : Int) * s) = ((k - 1 : Nat) : Int) * s :=
    wrapInt64_of_range _ (by omega) hrange
  have hrun := RunTranscription_done w fuel audioFile inputBucket outputBucket jobName resultsFile s
    (k - 1) fileURI hdrop hstart hpending hdone (by omega)
  rw [hwrap] at hrun
  refine ⟨_, _, hrun, afterLoop_outcome w outputBucket jobName resultsFile _, ?_⟩
  have hdiff : ((k - 1 : Nat) : Int) * s - (k : Int) * s = -s := by
    have hk1 : ((k - 1 : Nat) : Int) = (k : Int) - 1 := by omega
    rw [hk1]
    ring
  rw [hdiff, abs_neg, abs_of_nonneg hs]

/-- Witness of C3, amended: three polls at an interval of 10 seconds. -/
theorem RunTranscription_elapsed_witness :
    ∃ trace outcome,
      RunTranscription
          (exampleWorld (pollsThen 2 (listAnswer (some "COMPLETED"))) helloBody "hello world")
          3 "FourScore.wav" "in" "out" "job" "FourScoreResult.txt" 10
        = some (trace, outcome) ∧
      ((∃ p, outcome = .panic p) ∨ (∃ err, outcome = .ret (((3 - 1 : Nat) : Int) * 10, err))) ∧
      |((3 - 1 : Nat) : Int) * 10 - ((3 : Nat) : Int) * 10| ≤ 10 :=
  RunTranscription_elapsed
    (exampleWorld (pollsThen 2 (listAnswer (some "COMPLETED"))) helloBody "hello world")
    3 "FourScore.wav" "in" "out" "job" "FourScoreResult.txt" 10 3 "s3://in/FourScore.wav"
    (by decide) (by decide) (by decide) (by decide) (by decide) (by decide) (by decide) (by decide)

/-- C7: when the upload, the submission, the status queries, the result
locator, the transcript and the expected-results file are all obtained without
error, `RunTranscription` returns a nil error if the transcript text equals the
expected text and otherwise the error whose message holds both texts; the
comparison is exact equality of the two strings. -/
theorem RunTranscription_compare (w : World) (fuel : Nat)
    (audioFile inputBucket outputBucket jobName resultsFile : String) (s : Int)
    (n : Nat) (fileURI resultsURI text expected : String)
    (hdrop : (dropFile w audioFile inputBucket).2 = .ret (fileURI, none))
    (hstart : (startTranscription w fileURI outputBucket jobName).2 = .ret none)
    (hpending : PollsPending w jobName n)
    (hdone : (isTranscriptionDone w n jobName).2 = .ret (true, none)) (hfuel : n < fuel)
    (huri : (getResultURI w jobName).2 = .ret (resultsURI, none))
    (htext : (getTextFromURI w outputBucket resultsURI).2 = .ret (text, none))
    (hfile : (getTextFromFile w resultsFile).2 = .ret (expected, none)) :
    ∃ trace,
      RunTranscription w fuel audioFile inputBucket outputBucket jobName resultsFile s
        = some (trace, .ret (wrapInt64 (n * s),
            if text = expected then none
            else some (.errorsNew
              ("Did NOT get the expected results. Got:\n" ++ text ++ "' instead of: '"
                ++ expected ++ "'")))) := by
  have hafter : (afterLoop w outputBucket jobName resultsFile (wrapInt64 (n * s))).2
      = .ret (wrapInt64 (n * s),
          if text = expected then none
          else some (.errorsNew
            ("Did NOT get the expected results. Got:\n" ++ text ++ "' instead of: '"
              ++ expected ++ "'"))) := by
    simp only [afterLoop, huri, htext, hfile]
    by_cases h : text = expected <;> simp [h]
  have hrun := RunTranscription_done w fuel audioFile inputBucket outputBucket jobName resultsFile s
    n fileURI hdrop hstart hpending hdone hfuel
  rw [hafter] at hrun
  exact ⟨_, hrun⟩

/-- Witness of C7: the text `hello world` against the expected `hello world`
and against the expected `Hello World`. -/
theorem RunTranscription_compare_witness :
    (∃ trace,
      RunTranscription (exampleWorld (fun _ => listAnswer (some "COMPLETED")) helloBody "hello world")
          1 "FourScore.wav" "in" "out" "job" "FourScoreResult.txt" 10
        = some (trace, .ret (0, none))) ∧
    (∃ trace,
      RunTranscription (exampleWorld (fun _ => listAnswer (some "COMPLETED")) helloBody "Hello World")
          1 "FourScore.wav" "in" "out" "job" "FourScoreResult.txt" 10
        = some (trace, .ret (0, some (.errorsNew
            "Did NOT get the expected results. Got:\nhello world' instead of: 'Hello World'")))) :=
  ⟨RunTranscription_compare
      (exampleWorld (fun _ => listAnswer (some "COMPLETED")) helloBody "hello world")
      1 "FourScore.wav" "in" "out" "job" "FourScoreResult.txt" 10 0
      "s3://in/FourScore.wav" "s3://out/job.json" "hello world" "hello world"
      (by decide) (by decide) (by decide) (by decide) (by decide) (by decide) (by decide)
      (by decide),
   RunTranscription_compare
      (exampleWorld (fun _ => listAnswer (some "COMPLETED")) helloBody "Hello World")
      1 "FourScore.wav" "in" "out" "job" "FourScoreResult.txt" 10 0
      "s3://in/FourScore.wav" "s3://out/job.json" "hello world" "Hello World"
      (by decide) (by decide) (by decide) (by decide) (by decide) (by decide) (by decide)
      (by decide)⟩

/-- C9: `RunTranscription` is fail-fast.  Whichever step is the first to
return an error (the upload, the submission, a status query after `n`
pending ones, the result-locator lookup, the fetch and parse of the transcript,
or the read of the expected-results file), `RunTranscription` returns that
error with the elapsed time counted so far, and the events of the run are
those of the steps up to the failing one, each performed once: nothing is
performed after it. -/
theorem RunTranscription_fail_fast (w : World) (fuel : Nat)
    (audioFile inputBucket outputBucket jobName resultsFile : String) (s : Int) :
    (∀ uri err, (dropFile w audioFile inputBucket).2 = .ret (uri, some err) →
      RunTranscription w fuel audioFile inputBucket outputBucket jobName resultsFile s
        = some ((dropFile w audioFile inputBucket).1, .ret (0, some err))) ∧
    (∀ fileURI err, (dropFile w audioFile inputBucket).2 = .ret (fileURI, none) →
      (startTranscription w fileURI outputBucket jobName).2 = .ret (some err) →
      RunTranscription w fuel audioFile inputBucket outputBucket jobName resultsFile s
        = some ((dropFile w audioFile inputBucket).1
            ++ [.startTranscriptionJob (startInput fileURI outputBucket jobName)],
            .ret (0, some err))) ∧
    (∀ fileURI n flag err, (dropFile w audioFile inputBucket).2 = .ret (fileURI, none) →
      (startTranscription w fileURI outputBucket jobName).2 = .ret none →
      PollsPending w jobName n →
      (isTranscriptionDone w n jobName).2 = .ret (flag, some err) → n < fuel →
      RunTranscription w fuel audioFile inputBucket outputBucket jobName resultsFile s
        = some ((dropFile w audioFile inputBucket).1
            ++ [.startTranscriptionJob (startInput fileURI outputBucket jobName)]
            ++ (pendingEvents jobName (multiplyDuration s timeSecond) n
                  ++ [.listTranscriptionJobs jobName]),
            .ret (wrapInt64 (n * s), some err))) ∧
    (∀ fileURI n uri err, (dropFile w audioFile inputBucket).2 = .ret (fileURI, none) →
      (startTranscription w fileURI outputBucket jobName).2 = .ret none →
      PollsPending w jobName n →
      (isTranscriptionDone w n jobName).2 = .ret (true, none) → n < fuel →
      (getResultURI w jobName).2 = .ret (uri, some err) →
      RunTranscription w fuel audioFile inputBucket outputBucket jobName resultsFile s
        = some ((dropFile w audioFile inputBucket).1
            ++ [.startTranscriptionJob (startInput fileURI outputBucket jobName)]
            ++ (pendingEvents jobName (multiplyDuration s timeSecond) n
                  ++ [.listTranscriptionJobs jobName])
            ++ [.getTranscriptionJob jobName],
            .ret (wrapInt64 (n * s), some err))) ∧
    (∀ fileURI n resultsURI text err,
      (dropFile w audioFile inputBucket).2 = .ret (fileURI, none) →
      (startTranscription w fileURI outputBucket jobName).2 = .ret none →
      PollsPending w jobName n →
      (isTranscriptionDone w n jobName).2 = .ret (true, none) → n < fuel →
      (getResultURI w jobName).2 = .ret (resultsURI, none) →
      (getTextFromURI w outputBucket resultsURI).2 = .ret (text, some err) →
      RunTranscription w fuel audioFile inputBucket outputBucket jobName resultsFile s
        = some ((dropFile w audioFile inputBucket).1
            ++ [.startTranscriptionJob (startInput fileURI outputBucket jobName)]
            ++ (pendingEvents jobName (multiplyDuration s timeSecond) n
                  ++ [.listTranscriptionJobs jobName])
            ++ ([.getTranscriptionJob jobName] ++ (getTextFromURI w outputBucket resultsURI).1),
            .ret (wrapInt64 (n * s), some err))) ∧
    (∀ fileURI n resultsURI text expected err,
      (dropFile w audioFile inputBucket).2 = .ret (fileURI, none) →
      (startTranscription w fileURI outputBucket jobName).2 = .ret none →
      PollsPending w jobName n →
      (isTranscriptionDone w n jobName).2 = .ret (true, none) → n < fuel →
      (getResultURI w jobName).2 = .ret (resultsURI, none) →
      (getTextFromURI w outputBucket resultsURI).2 = .ret (text, none) →
      (getTextFromFile w resultsFile).2 = .ret (expected, some err) →
      RunTranscription w fuel audioFile inputBucket outputBucket jobName resultsFile s
        = some ((dropFile w audioFile inputBucket).1
            ++ [.startTranscriptionJob (startInput fileURI outputBucket jobName)]
            ++ (pendingEvents jobName (multiplyDuration s timeSecond) n
                  ++ [.listTranscriptionJobs jobName])
            ++ ([.getTranscriptionJob jobName] ++ (getTextFromURI w outputBucket resultsURI).1
                  ++ (getTextFromFile w resultsFile).1),
            .ret (wrapInt64 (n * s), some err))) := by
  have hstartEvents : ∀ fileURI, (startTranscription w fileURI outputBucket jobName).1
      = [.startTranscriptionJob (startInput fileURI outputBucket jobName)] := by
    intro fileURI
    unfold startTranscription
    split <;> rfl
  have huriEvents : (getResultURI w jobName).1 = [.getTranscriptionJob jobName] := rfl
  refine ⟨?_, ?_, ?_, ?_, ?_, ?_⟩
  · intro uri err hdrop
    simp only [RunTranscription, hdrop]
  · intro fileURI err hdrop hstart
    simp only [RunTranscription, hdrop, hstart, hstartEvents]
  · intro fileURI n flag err hdrop hstart hpending hfail hfuel
    rw [RunTranscription_failed w fuel audioFile inputBucket outputBucket jobName resultsFile s
      n fileURI flag err hdrop hstart hpending hfail hfuel, hstartEvents]
  · intro fileURI n uri err hdrop hstart hpending hdone hfuel huri
    rw [RunTranscription_done w fuel audioFile inputBucket outputBucket jobName resultsFile s
      n fileURI hdrop hstart hpending hdone hfuel, hstartEvents]
    simp only [afterLoop, huri, huriEvents]
  · intro fileURI n resultsURI text err hdrop hstart hpending hdone hfuel huri htext
    rw [RunTranscription_done w fuel audioFile inputBucket outputBucket jobName resultsFile s
      n fileURI hdrop hstart hpending hdone hfuel, hstartEvents]
    simp only [afterLoop, huri, htext, huriEvents]
  · intro fileURI n resultsURI text expected err hdrop hstart hpending hdone hfuel huri htext hfile
    rw [RunTranscription_done w fuel audioFile inputBucket outputBucket jobName resultsFile s
      n fileURI hdrop hstart hpending hdone hfuel, hstartEvents]
    simp only [afterLoop, huri, htext, hfile, huriEvents]

/-- Witness of C9: a failing open of the audio file, a failing submission, a
job reported `FAILED` at the second status query, a failing result-locator
lookup, a failing fetch of the transcript and a failing read of the
expected-results file, at a poll interval of 10 seconds. -/
theorem RunTranscription_fail_fast_witness :
    RunTranscription
        { exampleWorld (fun _ => listAnswer (some "COMPLETED")) helloBody "hello world" with
          osOpen := fun _ => .error (.remote "no such file") }
        5 "FourScore.wav" "in" "out" "job" "FourScoreResult.txt" 10
      = some ([.osOpen "FourScore.wav", .println "Could not open FourScore.wav"],
          .ret (0, some (.remote "no such file"))) ∧
    RunTranscription
        { exampleWorld (fun _ => listAnswer (some "COMPLETED")) helloBody "hello world" with
          startTranscriptionJob := fun _ => .error (.remote "limit exceeded") }
        5 "FourScore.wav" "in" "out" "job" "FourScoreResult.txt" 10
      = some ([.osOpen "FourScore.wav", .upload "in" "FourScore.wav" ⟨"FourScore.wav"⟩,
            .fileClose ⟨"FourScore.wav"⟩, .startTranscriptionJob (startInput "s3://in/FourScore.wav" "out" "job")],
          .ret (0, some (.remote "limit exceeded"))) ∧
    RunTranscription
        (exampleWorld (pollsThen 1 (listAnswer (some "FAILED"))) helloBody "hello world")
        5 "FourScore.wav" "in" "out" "job" "FourScoreResult.txt" 10
      = some ([.osOpen "FourScore.wav", .upload "in" "FourScore.wav" ⟨"FourScore.wav"⟩,
            .fileClose ⟨"FourScore.wav"⟩, .startTranscriptionJob (startInput "s3://in/FourScore.wav" "out" "job"),
            .listTranscriptionJobs "job", .sleep 10000000000, .listTranscriptionJobs "job"],
          .ret (10, some (.errorsNew "Job failed"))) ∧
    RunTranscription
        { exampleWorld (fun _ => listAnswer (some "COMPLETED")) helloBody "hello world" with
          getTranscriptionJob := fun _ => .error (.remote "not found") }
        5 "FourScore.wav" "in" "out" "job" "FourScoreResult.txt" 10
      = some ([.osOpen "FourScore.wav", .upload "in" "FourScore.wav" ⟨"FourScore.wav"⟩,
            .fileClose ⟨"FourScore.wav"⟩, .startTranscriptionJob (startInput "s3://in/FourScore.wav" "out" "job"),
            .listTranscriptionJobs "job", .getTranscriptionJob "job"],
          .ret (0, some (.remote "not found"))) ∧
    RunTranscription
        { exampleWorld (fun _ => listAnswer (some "COMPLETED")) helloBody "hello world" with
          getObject := fun _ _ => .error (.remote "no such key") }
        5 "FourScore.wav" "in" "out" "job" "FourScoreResult.txt" 10
      = some ([.osOpen "FourScore.wav", .upload "in" "FourScore.wav" ⟨"FourScore.wav"⟩,
            .fileClose ⟨"FourScore.wav"⟩, .startTranscriptionJob (startInput "s3://in/FourScore.wav" "out" "job"),
            .listTranscriptionJobs "job", .getTranscriptionJob "job", .getObject "out" "job.json"],
          .ret (0, some (.remote "no such key"))) ∧
    RunTranscription
        { exampleWorld (fun _ => listAnswer (some "COMPLETED")) helloBody "hello world" with
          readAll := fun _ => .error (.remote "read error") }
        5 "FourScore.wav" "in" "out" "job" "FourScoreResult.txt" 10
      = some ([.osOpen "FourScore.wav", .upload "in" "FourScore.wav" ⟨"FourScore.wav"⟩,
            .fileClose ⟨"FourScore.wav"⟩, .startTranscriptionJob (startInput "s3://in/FourScore.wav" "out" "job"),
            .listTranscriptionJobs "job", .getTranscriptionJob "job", .getObject "out" "job.json",
            .osOpen "FourScoreResult.txt", .readAll ⟨"FourScoreResult.txt"⟩,
            .fileClose ⟨"FourScoreResult.txt"⟩],
          .ret (0, some (.remote "read error"))) :=
  ⟨(RunTranscription_fail_fast
        { exampleWorld (fun _ => listAnswer (some "COMPLETED")) helloBody "hello world" with
          osOpen := fun _ => .error (.remote "no such file") }
        5 "FourScore.wav" "in" "out" "job" "FourScoreResult.txt" 10).1
      "" _ (by decide),
   (RunTranscription_fail_fast
        { exampleWorld (fun _ => listAnswer (some "COMPLETED")) helloBody "hello world" with
          startTranscriptionJob := fun _ => .error (.remote "limit exceeded") }
        5 "FourScore.wav" "in" "out" "job" "FourScoreResult.txt" 10).2.1
      "s3://in/FourScore.wav" _ (by decide) (by decide),
   (RunTranscription_fail_fast
        (exampleWorld (pollsThen 1 (listAnswer (some "FAILED"))) helloBody "hello world")
        5 "FourScore.wav" "in" "out" "job" "FourScoreResult.txt" 10).2.2.1
      "s3://in/FourScore.wav" 1 false _ (by decide) (by decide) (by decide) (by decide) (by decide),
   (RunTranscription_fail_fast
        { exampleWorld (fun _ => listAnswer (some "COMPLETED")) helloBody "hello world" with
          getTranscriptionJob := fun _ => .error (.remote "not found") }
        5 "FourScore.wav" "in" "out" "job" "FourScoreResult.txt" 10).2.2.2.1
      "s3://in/FourScore.wav" 0 "" _ (by decide) (by decide) (by decide) (by decide) (by decide)
      (by decide),
   (RunTranscription_fail_fast
        { exampleWorld (fun _ => listAnswer (some "COMPLETED")) helloBody "hello world" with
          getObject := fun _ _ => .error (.remote "no such key") }
        5 "FourScore.wav" "in" "out" "job" "FourScoreResult.txt" 10).2.2.2.2.1
      "s3://in/FourScore.wav" 0 "s3://out/job.json" "" _ (by decide) (by decide) (by decide)
      (by decide) (by decide) (by decide) (by decide),
   (RunTranscription_fail_fast
        { exampleWorld (fun _ => listAnswer (some "COMPLETED")) helloBody "hello world" with
          readAll := fun _ => .error (.remote "read error") }
        5 "FourScore.wav" "in" "out" "job" "FourScoreResult.txt" 10).2.2.2.2.2
      "s3://in/FourScore.wav" 0 "s3://out/job.json" "hello world" "" _ (by decide) (by decide)
      (by decide) (by decide) (by decide) (by decide) (by decide) (by decide)⟩

/-- C10: the polling loop has no timeout and no attempt limit.  After `n`
pending answers followed by an answer that is done, failed or an error, the
loop performs `n + 1` status queries and `n` sleeps and is left at the last
query; and as long as the answers are pending the loop is still running,
however many there are. -/
theorem pollLoop_runs_until_terminal (w : World) (jobName : String) (s ts : Int) (n : Nat)
    (hpending : PollsPending w jobName n) :
    (∀ fuel, n < fuel → (isTranscriptionDone w n jobName).2 = .ret (true, none) →
      pollLoop w jobName s ts fuel 0 0
        = some (pendingEvents jobName ts n ++ [.listTranscriptionJobs jobName],
            .done (wrapInt64 (n * s)))) ∧
    (∀ fuel flag err, n < fuel → (isTranscriptionDone w n jobName).2 = .ret (flag, some err) →
      pollLoop w jobName s ts fuel 0 0
        = some (pendingEvents jobName ts n ++ [.listTranscriptionJobs jobName],
            .failed (wrapInt64 (n * s)) err)) ∧
    List.countP Event.isPoll (pendingEvents jobName ts n ++ [.listTranscriptionJobs jobName])
      = n + 1 ∧
    List.countP Event.isSleep (pendingEvents jobName ts n ++ [.listTranscriptionJobs jobName])
      = n ∧
    (∀ fuel, fuel ≤ n → pollLoop w jobName s ts fuel 0 0 = none) := by
  refine ⟨?_, ?_, ?_, ?_, ?_⟩
  · intro fuel hfuel hdone
    exact pollLoop_done w jobName s ts n fuel hpending hdone hfuel
  · intro fuel flag err hfuel hfail
    exact pollLoop_failed w jobName s ts n fuel flag err hpending hfail hfuel
  · simp [List.countP_append, countP_isPoll_pendingEvents, Event.isPoll]
  · simp [List.countP_append, countP_isSleep_pendingEvents, Event.isSleep]
  · intro fuel hfuel
    apply pollLoop_still_running
    intro i hi
    simpa using hpending i (by omega)

/-- Witness of C10: two pending answers followed by `COMPLETED`, by `FAILED`
and by an error of the service, at a sleep of 10 seconds. -/
theorem pollLoop_runs_until_terminal_witness :
    pollLoop (exampleWorld (pollsThen 2 (listAnswer (some "COMPLETED"))) "" "") "job" 10 10000000000 3 0 0
      = some ([.listTranscriptionJobs "job", .sleep 10000000000, .listTranscriptionJobs "job",
               .sleep 10000000000, .listTranscriptionJobs "job"], .done 20) ∧
    pollLoop (exampleWorld (pollsThen 2 (listAnswer (some "FAILED"))) "" "") "job" 10 10000000000 3 0 0
      = some ([.listTranscriptionJobs "job", .sleep 10000000000, .listTranscriptionJobs "job",
               .sleep 10000000000, .listTranscriptionJobs "job"],
              .failed 20 (.errorsNew "Job failed")) ∧
    pollLoop (exampleWorld (pollsThen 2 (.error (.remote "throttled"))) "" "") "job" 10 10000000000 3 0 0
      = some ([.listTranscriptionJobs "job", .sleep 10000000000, .listTranscriptionJobs "job",
               .sleep 10000000000, .listTranscriptionJobs "job"],
              .failed 20 (.remote "throttled")) ∧
    pollLoop (exampleWorld (pollsThen 2 (listAnswer (some "COMPLETED"))) "" "") "job" 10 10000000000 2 0 0
      = none :=
  ⟨(pollLoop_runs_until_terminal
      (exampleWorld (pollsThen 2 (listAnswer (some "COMPLETED"))) "" "") "job" 10 10000000000 2
      (by decide)).1 3 (by decide) (by decide),
   (pollLoop_runs_until_terminal
      (exampleWorld (pollsThen 2 (listAnswer (some "FAILED"))) "" "") "job" 10 10000000000 2
      (by decide)).2.1 3 false _ (by decide) (by decide),
   (pollLoop_runs_until_terminal
      (exampleWorld (pollsThen 2 (.error (.remote "throttled"))) "" "") "job" 10 10000000000 2
      (by decide)).2.1 3 false _ (by decide) (by decide),
   (pollLoop_runs_until_terminal
      (exampleWorld (pollsThen 2 (listAnswer (some "COMPLETED"))) "" "") "job" 10 10000000000 2
      (by decide)).2.2.2.2 2 (by decide)⟩

/-! ### `main` -/

/-- Whatever the command line and the session, `main` prints its usage message
and returns: its flag variables hold their defaults and the default input
bucket is empty. -/
theorem main_prints_usage (session : Except GoError World) (fuel : Nat) (args : List String) :
    main session fuel args = some ([.println usageMessage], .ret ()) := by
  have h : usageCondition flagDefaults = true := by decide
  simp only [main, mainBody, flagValues, h, if_true]

/-- The usage condition holds when a text value is empty or the sleep value is
negative. -/
theorem usageCondition_iff (f : Flags) :
    usageCondition f = true ↔
      (f.inputBucket = "" ∨ f.outputBucket = "" ∨ f.audioFile = "" ∨ f.resultFile = ""
        ∨ f.sleepSeconds < 0 ∨ f.jobName = "") := by
  simp [usageCondition, or_assoc]

/-- C11: what `main` does where the claimed refusal rule fails.  For the
command line `-i in -o out -s 10`, which supplies every value and a sleep value
above 0, `main` prints its usage message and starts nothing, because it never
parses the command line; and for the flag values `in`, `out`, `FourScore.wav`,
`FourScoreResult.txt`, `0`, `ConvertAudioToText` the usage condition is false
and the rest of `main` runs the transcription with a sleep value of 0, which
the usage message excludes. -/
theorem main_refusal_diverges :
    main (.ok (exampleWorld (pollsThen 1 (listAnswer (some "COMPLETED"))) helloBody "hello world")) 5
        ["-i", "in", "-o", "out", "-s", "10"]
      = some ([.println usageMessage], .ret ()) ∧
    usageCondition
        { inputBucket := "in", outputBucket := "out", audioFile := "FourScore.wav",
          resultFile := "FourScoreResult.txt", sleepSeconds := 0,
          jobName := "ConvertAudioToText" } = false ∧
    mainBody (.ok (exampleWorld (pollsThen 1 (listAnswer (some "COMPLETED"))) helloBody "hello world")) 5
        { inputBucket := "in", outputBucket := "out", audioFile := "FourScore.wav",
          resultFile := "FourScoreResult.txt", sleepSeconds := 0,
          jobName := "ConvertAudioToText" }
      = some ([.osOpen "FourScore.wav", .upload "in" "FourScore.wav" ⟨"FourScore.wav"⟩,
            .fileClose ⟨"FourScore.wav"⟩,
            .startTranscriptionJob (startInput "s3://in/FourScore.wav" "out" "ConvertAudioToText"),
            .listTranscriptionJobs "ConvertAudioToText", .sleep 0,
            .listTranscriptionJobs "ConvertAudioToText",
            .getTranscriptionJob "ConvertAudioToText",
            .getObject "out" "ConvertAudioToText.json",
            .osOpen "FourScoreResult.txt", .readAll ⟨"FourScoreResult.txt"⟩,
            .fileClose ⟨"FourScoreResult.txt"⟩,
            .println "Transcription was successful after waiting 0 seconds"], .ret ()) := by
  refine ⟨?_, ?_, ?_⟩ <;> decide

/-! ### The key requested by `getTextFromURI` -/

/-- A split always has at least one part. -/
theorem stringsSplit_ne_nil (sep : Char) : ∀ cs : List Char, stringsSplit cs sep ≠ []
  | [] => by simp [stringsSplit]
  | c :: cs => by
    unfold stringsSplit
    split
    · simp
    · split <;> simp

/-- The text after the last separator is the last part of the split. -/
theorem stringsSplit_append_last (sep : Char) (after : List Char) (h : sep ∉ after) :
    ∀ before : List Char,
      stringsSplit (before ++ sep :: after) sep = stringsSplit before sep ++ [after]
  | [] => by
    simp [stringsSplit, stringsSplit_of_not_mem sep after h]
  | c :: t => by
    have ih := stringsSplit_append_last sep after h t
    by_cases hc : c = sep
    · simp [stringsSplit, hc, ← ih]
    · cases hs : stringsSplit t sep with
      | nil => exact absurd hs (stringsSplit_ne_nil sep t)
      | cons p ps =>
        rw [List.cons_append, stringsSplit, if_neg hc, ih, hs]
        simp [stringsSplit, hc, hs]

/-- A text that holds the separator is cut at its last occurrence. -/
theorem exists_last_separator (sep : Char) :
    ∀ cs : List Char, sep ∈ cs → ∃ before after, cs = before ++ sep :: after ∧ sep ∉ after
  | [], h => by simp at h
  | c :: t, h => by
    by_cases ht : sep ∈ t
    · obtain ⟨before, after, hcs, hafter⟩ := exists_last_separator sep t ht
      exact ⟨c :: before, after, by simp [hcs], hafter⟩
    · have hc : sep = c := by
        rcases List.mem_cons.mp h with h1 | h1
        · exact h1
        · exact absurd h1 ht
      exact ⟨[], t, by simp [hc], ht⟩

/-- The events of `getTextFromURI` are the one request for the last part. -/
theorem getTextFromURI_events (w : World) (outputBucket uri : String) (part : List Char)
    (hkey : (stringsSplit uri.data '/').getLast? = some part) :
    (getTextFromURI w outputBucket uri).1 = [.getObject outputBucket (String.mk part)] := by
  simp only [getTextFromURI, hkey]

/-- C12: `getTextFromURI` requests from the output bucket the object whose key
is the text of the URI after its last slash, the whole URI when it has no
slash; the split of the URI always has a last part, so the index expression
`parts[len(parts)-1]` does not panic; for a URI `s3://` + bucket + `/` +
filename with a filename without slash the key is the filename. -/
theorem getTextFromURI_key (w : World) (outputBucket : String) :
    (∀ uri : String, ∃ part, (stringsSplit uri.data '/').getLast? = some part ∧ '/' ∉ part ∧
      (getTextFromURI w outputBucket uri).1 = [.getObject outputBucket (String.mk part)]) ∧
    (∀ uri : String, '/' ∉ uri.data →
      (getTextFromURI w outputBucket uri).1 = [.getObject outputBucket uri]) ∧
    (∀ before after : List Char, '/' ∉ after →
      (getTextFromURI w outputBucket (String.mk (before ++ '/' :: after))).1
        = [.getObject outputBucket (String.mk after)]) ∧
    (∀ bucket filename : String, '/' ∉ filename.data →
      (getTextFromURI w outputBucket ("s3://" ++ bucket ++ "/" ++ filename)).1
        = [.getObject outputBucket filename]) := by
  have hwhole : ∀ cs : List Char, '/' ∉ cs → (stringsSplit cs '/').getLast? = some cs := by
    intro cs h
    rw [stringsSplit_of_not_mem '/' cs h]
    rfl
  have hcut : ∀ before after : List Char, '/' ∉ after →
      (stringsSplit (before ++ '/' :: after) '/').getLast? = some after := by
    intro before after h
    rw [stringsSplit_append_last '/' after h before]
    simp
  refine ⟨?_, ?_, ?_, ?_⟩
  · intro uri
    by_cases h : '/' ∈ uri.data
    · obtain ⟨before, after, hcs, hafter⟩ := exists_last_separator '/' uri.data h
      have hkey : (stringsSplit uri.data '/').getLast? = some after := by
        rw [hcs]
        exact hcut before after hafter
      exact ⟨after, hkey, hafter, getTextFromURI_events w outputBucket uri after hkey⟩
    · exact ⟨uri.data, hwhole _ h, h, getTextFromURI_events w outputBucket uri _ (hwhole _ h)⟩
  · intro uri h
    exact getTextFromURI_events w outputBucket uri _ (hwhole _ h)
  · intro before after h
    exact getTextFromURI_events w outputBucket _ after (hcut before after h)
  · intro bucket filename h
    have hdata : ("s3://" ++ bucket ++ "/" ++ filename).data
        = ("s3://".data ++ bucket.data) ++ '/' :: filename.data := by
      simp [String.data_append]
    have hkey : (stringsSplit ("s3://" ++ bucket ++ "/" ++ filename).data '/').getLast?
        = some filename.data := by
      rw [hdata]
      exact hcut _ _ h
    exact getTextFromURI_events w outputBucket _ filename.data hkey

/-- Witness of C12: a URI without slash, and the URI of the object `job.json`
in the bucket `out`. -/
theorem getTextFromURI_key_witness :
    (getTextFromURI (exampleWorld (fun _ => listAnswer none) helloBody "") "out" "job.json").1
      = [.getObject "out" "job.json"] ∧
    (getTextFromURI (exampleWorld (fun _ => listAnswer none) helloBody "") "out"
        (String.mk ("s3://out".data ++ '/' :: "job.json".data))).1
      = [.getObject "out" "job.json"] ∧
    (getTextFromURI (exampleWorld (fun _ => listAnswer none) helloBody "") "out"
        ("s3://" ++ "out" ++ "/" ++ "job.json")).1
      = [.getObject "out" "job.json"] :=
  ⟨(getTextFromURI_key (exampleWorld (fun _ => listAnswer none) helloBody "") "out").2.1
      "job.json" (by decide),
   (getTextFromURI_key (exampleWorld (fun _ => listAnswer none) helloBody "") "out").2.2.1
      "s3://out".data "job.json".data (by decide),
   (getTextFromURI_key (exampleWorld (fun _ => listAnswer none) helloBody "") "out").2.2.2
      "out" "job.json" (by decide)⟩

/-! ### `multiplyDuration` -/

/-- C13: `multiplyDuration` returns the product reduced to `int64`: a value in
the range of `int64` that differs from `factor * d` by a multiple of `2^64`.
For a poll interval `s` from 0 to 9223372036 the sleep duration
`multiplyDuration(s, time.Second)` is `s * 10^9` nanoseconds and not negative;
for every larger `s` the product wraps and differs from `s * 10^9`, and for
`s = 9223372037` the loop sleeps a negative duration while the elapsed time
counted for the pending poll is `s`. -/
theorem multiplyDuration_seconds :
    (∀ factor d : Int,
      -2 ^ 63 ≤ multiplyDuration factor d ∧ multiplyDuration factor d < 2 ^ 63 ∧
      (multiplyDuration factor d - factor * d) % 2 ^ 64 = 0) ∧
    (∀ s : Int, 0 ≤ s → s ≤ 9223372036 →
      multiplyDuration s timeSecond = s * 1000000000 ∧ 0 ≤ multiplyDuration s timeSecond) ∧
    (∀ s : Int, 9223372036 < s → multiplyDuration s timeSecond ≠ s * 1000000000) ∧
    ((9223372037 : Int) < 2 ^ 63 ∧
      multiplyDuration 9223372037 timeSecond = -9223372036709551616 ∧
      pollLoop (exampleWorld (pollsThen 1 (listAnswer (some "COMPLETED"))) "" "") "job"
          9223372037 (multiplyDuration 9223372037 timeSecond) 2 0 0
        = some ([.listTranscriptionJobs "job", .sleep (-9223372036709551616),
                 .listTranscriptionJobs "job"], .done 9223372037)) := by
  refine ⟨?_, ?_, ?_, ?_⟩
  · intro factor d
    unfold multiplyDuration wrapInt64
    generalize factor * d = x
    omega
  · intro s h0 h1
    have hval : multiplyDuration s timeSecond = s * 1000000000 := by
      unfold multiplyDuration timeSecond
      exact wrapInt64_of_range _ (by omega) (by omega)
    rw [hval]
    exact ⟨rfl, by omega⟩
  · intro s h
    unfold multiplyDuration wrapInt64 timeSecond
    omega
  · refine ⟨by decide, by decide, by decide⟩

/-- Witness of C13: the sleep durations for the intervals 10 and 9223372037. -/
theorem multiplyDuration_seconds_witness :
    (multiplyDuration 10 timeSecond = 10 * 1000000000 ∧ 0 ≤ multiplyDuration 10 timeSecond) ∧
    multiplyDuration 9223372037 timeSecond ≠ 9223372037 * 1000000000 :=
  ⟨multiplyDuration_seconds.2.1 10 (by decide) (by decide),
   multiplyDuration_seconds.2.2.1 9223372037 (by decide)⟩

end AudioToText
